import Mathlib

/-!
Verification development for the authentication / session / MFA core of the
finance-manager repository (`services/auth`).

The development is a shallow embedding of `src/services/auth-service.ts`
(`AuthService` and `PrismaAuthRepository`), `src/lib/totp.ts` and
`src/lib/encryption.ts`:

* Persistent state is a `Store` of record lists; each `PrismaAuthRepository`
  method becomes a pure function on `Store`, with the semantics of the Prisma
  calls it makes (`update where {id}` succeeds on any existing row and raises
  `P2025` on a missing one, `updateMany` filters by its `where` clause, ...).
* `Date` values are milliseconds since epoch (`Nat`); each service call takes
  its `Date.now()` instant as an explicit `now` argument.
* Randomness (`crypto.randomUUID`, `crypto.randomBytes`) is supplied through an
  explicit oracle `Gen`.
* `argon2.hash` / `argon2.verify` are modelled collision-free: a stored hash is
  either `Argon2Hash.hashOf value` (well-formed) or `Argon2Hash.malformed`;
  `argon2.verify` resolves to a boolean on a well-formed hash and rejects
  (raises) on a malformed one, as the node-argon2 library does.
* AES-256-GCM encryption of MFA secrets is modelled as an authenticated
  container `EncryptedSecret.payload plainText key`: decryption with the right
  key yields the plaintext, anything else fails closed.
* Thrown errors are `Failure` values; service functions return
  `Except Failure result × Store` so that side effects already persisted when
  an error is thrown stay visible.
* The TOTP codec (`base32`, HMAC-SHA1, dynamic truncation) is implemented
  concretely, bit for bit after `src/lib/totp.ts`.
* Audit events and outgoing emails are append-only, best-effort side channels
  that no property here observes; they are omitted from the state.
-/

namespace FinanceAuth

/-! ## JavaScript string helpers -/

/-- JS truthiness of an optional string (`undefined`, `null` and `""` are falsy). -/
def jsTruthy : Option String → Bool
  | some v => !v.isEmpty
  | none => false

/-- The regex test `/^[0-9]{6}$/.test(token)`. -/
def sixDigitShape (token : String) : Bool :=
  token.length == 6 && token.toList.all Char.isDigit

/-- One character of the class `[A-Z0-9]`. -/
def isUpperAlnum (c : Char) : Bool :=
  ('A' ≤ c && c ≤ 'Z') || ('0' ≤ c && c ≤ '9')

/-- The regex test `BACKUP_CODE_PATTERN.test(code)` for `/^[A-Z0-9]{4}-[A-Z0-9]{4}$/`. -/
def backupCodeShape (code : String) : Bool :=
  match code.toList with
  | [c0, c1, c2, c3, dash, c4, c5, c6, c7] =>
      dash == '-' && [c0, c1, c2, c3, c4, c5, c6, c7].all isUpperAlnum
  | _ => false

/-- `code.toUpperCase()` (character-wise, so that proofs can evaluate it). -/
def jsToUpper (s : String) : String :=
  String.mk (s.toList.map Char.toUpper)

/-- `value.toLowerCase()` (character-wise). -/
def jsToLower (s : String) : String :=
  String.mk (s.toList.map Char.toLower)

/-- `value.trim()`. -/
def jsTrim (s : String) : String :=
  String.mk (((s.toList.dropWhile Char.isWhitespace).reverse.dropWhile
    Char.isWhitespace).reverse)

/-- `value.trim().toLowerCase()` from `AuthService.normalizeEmail`. -/
def normalizeEmail (value : String) : String :=
  jsToLower (jsTrim value)

/-! ## Model of argon2 password hashing

`argon2.hash` salts its input, but is modelled as the injective constructor
`hashOf` (the spec's collision-freeness reading of `verify(hash(p), q) = (p = q)`).
`argon2.verify` on a string that is not an argon2 hash rejects with an error in
the node-argon2 library; `malformed` stored values model that case. -/

inductive Argon2Hash where
  | hashOf (value : String)
  | malformed (raw : String)
deriving DecidableEq, Repr

/-- `argon2.verify(hash, candidate)`: boolean on a well-formed hash, raises on a
malformed one. -/
def argon2Verify (h : Argon2Hash) (candidate : String) : Except Unit Bool :=
  match h with
  | .hashOf value => .ok (value == candidate)
  | .malformed _ => .error ()

/-! ## Model of the MFA secret cipher (`src/lib/encryption.ts`) -/

/-- Output of `encryptSecret(plainText, key)`: an authenticated payload bound to
the key that produced it. -/
inductive EncryptedSecret where
  | payload (plainText : String) (key : String)
deriving DecidableEq, Repr

/-- `decryptSecret(payload, key)`: recovers the plaintext under the matching
key and fails closed (GCM tag mismatch) otherwise. -/
def decryptSecret (p : EncryptedSecret) (key : String) : Except Unit String :=
  match p with
  | .payload plainText k => if k == key then .ok plainText else .error ()

/-! ## Error taxonomy

`AuthErrorCode` lists the typed failures thrown by `AuthService` (the
`AUTH_*` codes); `Failure` adds the untyped exceptions that can propagate
through a service call. -/

inductive AuthErrorCode where
  | termsNotAccepted
  | emailExists
  | invalidCredentials
  | accountSuspended
  | invalidRefreshToken
  | refreshTokenRevoked
  | refreshTokenExpired
  | resetTokenInvalid
  | emailVerificationInvalid
  | mfaAlreadyEnabled
  | challengeInvalid
  | challengeExpired
  | challengeLocked
  | codeIncorrect
deriving DecidableEq, Repr

inductive Failure where
  /-- A typed `AppError` thrown by the service (stable machine code). -/
  | authError (code : AuthErrorCode)
  /-- A rejection propagated from `argon2.verify` (malformed stored hash). -/
  | argon2Raise
  /-- An error propagated from `decryptSecret` (bad key or payload). -/
  | decryptRaise
  /-- A storage-layer error (e.g. Prisma `P2025`) propagating unmodified. -/
  | storageRaise
deriving DecidableEq, Repr

/-! ## Data model (`src/domain/models.ts`, restricted to the fields the
authentication core reads or writes) -/

inductive UserStatus where
  | active
  | invited
  | suspended
deriving DecidableEq, Repr

/-- A user row joined with its password credential
(`findUserByEmail` includes `passwordCredential`). -/
structure UserRecord where
  id : String
  email : String
  status : UserStatus
  passwordHash : Argon2Hash
  emailVerifiedAt : Option Nat
  lastLoginAt : Option Nat
deriving DecidableEq, Repr

/-- `AuthUser`: the user as returned by the service, password hash stripped. -/
structure AuthUser where
  id : String
  email : String
  status : UserStatus
  emailVerifiedAt : Option Nat
  lastLoginAt : Option Nat
deriving DecidableEq, Repr

/-- `AuthService.stripPassword`. -/
def stripPassword (u : UserRecord) : AuthUser :=
  { id := u.id, email := u.email, status := u.status
    emailVerifiedAt := u.emailVerifiedAt, lastLoginAt := u.lastLoginAt }

structure RefreshTokenRecord where
  id : String
  userId : String
  tokenHash : Argon2Hash
  issuedAt : Nat
  expiresAt : Nat
  revokedAt : Option Nat
  replacedByTokenId : Option String
deriving DecidableEq, Repr

inductive ChallengeType where
  | setup
  | login
  | recovery
deriving DecidableEq, Repr

/-- The typed content of a login challenge's `context` JSON blob. -/
structure ChallengeContext where
  rememberMe : Bool
deriving DecidableEq, Repr

structure MfaChallengeRecord where
  id : String
  userId : String
  userMfaId : Option String
  ctype : ChallengeType
  secretEncrypted : Option EncryptedSecret
  deviceName : Option String
  context : Option ChallengeContext
  expiresAt : Nat
  consumedAt : Option Nat
  attempts : Nat
deriving DecidableEq, Repr

/-- A `UserMfaSetting` row (`MfaConfiguration` in the domain model). -/
structure MfaConfigurationRecord where
  id : String
  userId : String
  secretEncrypted : EncryptedSecret
  deviceName : Option String
  activatedAt : Option Nat
deriving DecidableEq, Repr

structure BackupCodeRecord where
  id : String
  userMfaId : String
  codeHash : Argon2Hash
  usedAt : Option Nat
deriving DecidableEq, Repr

structure RememberedDeviceRecord where
  id : String
  userMfaId : String
  tokenHash : Argon2Hash
  expiresAt : Nat
  lastUsedAt : Option Nat
deriving DecidableEq, Repr

structure PasswordResetTokenRecord where
  id : String
  userId : String
  token : String
  expiresAt : Nat
  consumedAt : Option Nat
deriving DecidableEq, Repr

/-- The persistent state behind `PrismaAuthRepository`. -/
structure Store where
  users : List UserRecord
  refreshTokens : List RefreshTokenRecord
  mfaSettings : List MfaConfigurationRecord
  mfaChallenges : List MfaChallengeRecord
  backupCodes : List BackupCodeRecord
  rememberedDevices : List RememberedDeviceRecord
  passwordResetTokens : List PasswordResetTokenRecord
deriving DecidableEq, Repr

/-! ## Repository operations (`PrismaAuthRepository`)

`update where {id}` on a missing row raises Prisma `P2025`; those operations
return `Option Store` / report the missing row, and the service maps the
`none` case to `Failure.storageRaise`. -/

def findUserById (s : Store) (id : String) : Option UserRecord :=
  s.users.find? (fun u => u.id == id)

def findUserByEmail (s : Store) (email : String) : Option UserRecord :=
  s.users.find? (fun u => u.email == email)

/-- `findRefreshTokenById`: the token row with its owning user included. -/
def findRefreshTokenById (s : Store) (id : String) :
    Option (RefreshTokenRecord × UserRecord) :=
  match s.refreshTokens.find? (fun r => r.id == id) with
  | none => none
  | some record =>
      match findUserById s record.userId with
      | none => none
      | some user => some (record, user)

def saveRefreshToken (s : Store) (r : RefreshTokenRecord) : Store :=
  { s with refreshTokens := s.refreshTokens ++ [r] }

/-- `revokeRefreshToken`: `prisma.refreshToken.update({ where: { id }, data:
{ revokedAt, replacedByTokenId: replacedByTokenId ?? null } })`. The `where`
clause filters on the id alone; an already revoked row is overwritten. -/
def revokeRefreshToken (s : Store) (id : String) (revokedAt : Nat)
    (replacedByTokenId : Option String) : Option Store :=
  if s.refreshTokens.any (fun r => r.id == id) then
    some { s with refreshTokens := s.refreshTokens.map (fun r =>
      if r.id == id then
        { r with revokedAt := some revokedAt, replacedByTokenId := replacedByTokenId }
      else r) }
  else none

/-- `revokeRefreshTokensForUser`: `updateMany({ where: { userId, revokedAt:
null }, data: { revokedAt } })`. -/
def revokeRefreshTokensForUser (s : Store) (userId : String) (revokedAt : Nat) :
    Store :=
  { s with refreshTokens := s.refreshTokens.map (fun r =>
      if r.userId == userId && r.revokedAt.isNone then
        { r with revokedAt := some revokedAt }
      else r) }

def getMfaConfiguration (s : Store) (userId : String) :
    Option MfaConfigurationRecord :=
  s.mfaSettings.find? (fun m => m.userId == userId)

/-- Input of `upsertMfaSetting` (method is always `totp` and is omitted). -/
structure UpsertMfaSettingInput where
  userId : String
  secretEncrypted : EncryptedSecret
  deviceName : Option String
  activatedAt : Option Nat

/-- `upsertMfaSetting`: update the row keyed by `userId`, or create it with a
fresh id (`newId`, drawn by the database). Returns the resulting row. -/
def upsertMfaSetting (s : Store) (input : UpsertMfaSettingInput) (newId : String) :
    MfaConfigurationRecord × Store :=
  match getMfaConfiguration s input.userId with
  | some existing =>
      let updated : MfaConfigurationRecord :=
        { existing with secretEncrypted := input.secretEncrypted
                        deviceName := input.deviceName
                        activatedAt := input.activatedAt }
      (updated, { s with mfaSettings := s.mfaSettings.map (fun m =>
        if m.userId == input.userId then updated else m) })
  | none =>
      let created : MfaConfigurationRecord :=
        { id := newId, userId := input.userId
          secretEncrypted := input.secretEncrypted
          deviceName := input.deviceName, activatedAt := input.activatedAt }
      (created, { s with mfaSettings := s.mfaSettings ++ [created] })

def listMfaBackupCodes (s : Store) (userMfaId : String) : List BackupCodeRecord :=
  s.backupCodes.filter (fun c => c.userMfaId == userMfaId)

/-- The stored row for one freshly hashed backup code (id and hash). -/
def backupRecordOf (userMfaId : String) (c : String × Argon2Hash) :
    BackupCodeRecord :=
  { id := c.1, userMfaId := userMfaId, codeHash := c.2, usedAt := none }

/-- `replaceMfaBackupCodes`: one transaction deleting every code of the
configuration and inserting the new hashed set. -/
def replaceMfaBackupCodes (s : Store) (userMfaId : String)
    (codes : List (String × Argon2Hash)) : Store :=
  let remaining := s.backupCodes.filter (fun c => !(c.userMfaId == userMfaId))
  let inserted := codes.map (backupRecordOf userMfaId)
  { s with backupCodes := remaining ++ inserted }

def markBackupCodeUsed (s : Store) (id : String) (when : Nat) : Option Store :=
  if s.backupCodes.any (fun c => c.id == id) then
    some { s with backupCodes := s.backupCodes.map (fun c =>
      if c.id == id then { c with usedAt := some when } else c) }
  else none

def findMfaChallengeById (s : Store) (id : String) : Option MfaChallengeRecord :=
  s.mfaChallenges.find? (fun c => c.id == id)

def incrementMfaChallengeAttempts (s : Store) (id : String) (attempts : Nat) :
    Option Store :=
  if s.mfaChallenges.any (fun c => c.id == id) then
    some { s with mfaChallenges := s.mfaChallenges.map (fun c =>
      if c.id == id then { c with attempts := attempts } else c) }
  else none

/-- `consumeMfaChallenge`: `update({ where: { id }, data: { consumedAt: when } })`,
with `P2025` caught and mapped to `null`. The `where` clause filters on the id
alone; an already consumed row is overwritten and still reported as success. -/
def consumeMfaChallenge (s : Store) (id : String) (when : Nat) :
    Option MfaChallengeRecord × Store :=
  match s.mfaChallenges.find? (fun c => c.id == id) with
  | none => (none, s)
  | some record =>
      (some { record with consumedAt := some when },
       { s with mfaChallenges := s.mfaChallenges.map (fun c =>
         if c.id == id then { c with consumedAt := some when } else c) })

def deleteMfaChallenge (s : Store) (id : String) : Option Store :=
  if s.mfaChallenges.any (fun c => c.id == id) then
    some { s with mfaChallenges := s.mfaChallenges.filter (fun c => !(c.id == id)) }
  else none

def listRememberedDevices (s : Store) (userMfaId : String) :
    List RememberedDeviceRecord :=
  s.rememberedDevices.filter (fun d => d.userMfaId == userMfaId)

/-- `updateRememberedDevice` (`lastUsedAt` and network context; the device was
just read from the store, so the `P2025` branch cannot fire and is omitted). -/
def updateRememberedDevice (s : Store) (id : String) (lastUsedAt : Nat) : Store :=
  { s with rememberedDevices := s.rememberedDevices.map (fun d =>
      if d.id == id then { d with lastUsedAt := some lastUsedAt } else d) }

/-- `deleteExpiredRememberedDevices`: `deleteMany({ where: { userMfaId,
expiresAt: { lt: now } } })`. -/
def deleteExpiredRememberedDevices (s : Store) (userMfaId : String) (now : Nat) :
    Store :=
  { s with rememberedDevices := s.rememberedDevices.filter (fun d =>
      !(d.userMfaId == userMfaId && d.expiresAt < now)) }

/-- `consumePasswordResetToken`: null for a missing, already consumed or
expired token; otherwise stamps `consumedAt` and returns the updated row. -/
def consumePasswordResetToken (s : Store) (token : String) (consumedAt : Nat) :
    Option PasswordResetTokenRecord × Store :=
  match s.passwordResetTokens.find? (fun r => r.token == token) with
  | none => (none, s)
  | some record =>
      if record.consumedAt.isSome then (none, s)
      else if record.expiresAt < consumedAt then (none, s)
      else
        (some { record with consumedAt := some consumedAt },
         { s with passwordResetTokens := s.passwordResetTokens.map (fun r =>
           if r.token == token then { r with consumedAt := some consumedAt } else r) })

def updatePasswordHash (s : Store) (userId : String) (passwordHash : Argon2Hash) :
    Option Store :=
  if s.users.any (fun u => u.id == userId) then
    some { s with users := s.users.map (fun u =>
      if u.id == userId then { u with passwordHash := passwordHash } else u) }
  else none

def updateLastLogin (s : Store) (userId : String) (when : Nat) : Option Store :=
  if s.users.any (fun u => u.id == userId) then
    some { s with users := s.users.map (fun u =>
      if u.id == userId then { u with lastLoginAt := some when } else u) }
  else none

/-! ## TOTP codec (`src/lib/totp.ts`)

Bytes are `Nat` values below 256.  JavaScript's 32-bit bitwise coercions never
bite here: the accumulators in the base32 routines stay below `2 ^ 13`, and the
SHA-1 words are masked to 32 bits at every step. -/

/-- `n`-byte big-endian encoding of a natural number
(`buffer.writeBigUInt64BE` for `n = 8`). -/
def beBytes (n : Nat) (value : Nat) : List Nat :=
  (List.range n).map (fun i => (value >>> (8 * (n - 1 - i))) % 256)

def BASE32_ALPHABET : List Char := "ABCDEFGHIJKLMNOPQRSTUVWXYZ234567".toList

def isBase32Char (c : Char) : Bool :=
  ('A' ≤ c && c ≤ 'Z') || ('2' ≤ c && c ≤ '7')

/-- `BASE32_ALPHABET.indexOf(char)` for a character of the alphabet. -/
def base32Index (c : Char) : Nat :=
  if 'A' ≤ c && c ≤ 'Z' then c.toNat - 'A'.toNat else 26 + (c.toNat - '2'.toNat)

/-- One step of the `base32Decode` accumulator loop. -/
def base32DecodeStep (st : Nat × Nat × List Nat) (c : Char) : Nat × Nat × List Nat :=
  let value := (st.2.1 <<< 5) ||| base32Index c
  let bits := st.1 + 5
  if 8 ≤ bits then (bits - 8, value, st.2.2 ++ [(value >>> (bits - 8)) &&& 255])
  else (bits, value, st.2.2)

/-- `base32Decode(input)`: uppercase, strip every character outside `A-Z2-7`,
then 5-bit-accumulate into bytes. -/
def base32Decode (input : String) : List Nat :=
  let clean := (jsToUpper input).toList.filter isBase32Char
  (clean.foldl base32DecodeStep (0, 0, [])).2.2

/-- One step of the `base32Encode` accumulator loop: push a byte, emit every
complete 5-bit group. -/
def base32EncodeStep (st : Nat × Nat × List Char) (byte : Nat) : Nat × Nat × List Char :=
  let value := (st.2.1 <<< 8) ||| byte
  let bits := st.1 + 8
  if 10 ≤ bits then
    (bits - 10, value,
     st.2.2 ++ [BASE32_ALPHABET.getD ((value >>> (bits - 5)) &&& 31) 'A',
                BASE32_ALPHABET.getD ((value >>> (bits - 10)) &&& 31) 'A'])
  else
    (bits - 5, value, st.2.2 ++ [BASE32_ALPHABET.getD ((value >>> (bits - 5)) &&& 31) 'A'])

/-- `base32Encode(buffer)`.  After each byte the JS loop drains every complete
5-bit group (one or two of them, since `bits < 5` is restored each round);
a final partial group is left-padded with zero bits. -/
def base32Encode (buffer : List Nat) : String :=
  let st := buffer.foldl base32EncodeStep (0, 0, [])
  let out := if 0 < st.1 then
      st.2.2 ++ [BASE32_ALPHABET.getD ((st.2.1 <<< (5 - st.1)) &&& 31) 'A']
    else st.2.2
  String.mk out

/-! ### SHA-1 and HMAC-SHA1 (`crypto.createHmac('sha1', secret)`) -/

def mod32 : Nat := 4294967296

def rotl32 (n : Nat) (x : Nat) : Nat :=
  ((x <<< n) ||| (x >>> (32 - n))) % mod32

/-- Merkle-Damgard padding: `0x80`, zeros, 8-byte big-endian bit length. -/
def sha1Pad (msg : List Nat) : List Nat :=
  let padZeros := (64 - ((msg.length + 9) % 64)) % 64
  msg ++ [128] ++ List.replicate padZeros 0 ++ beBytes 8 (msg.length * 8)

/-- Split a padded message into 64-byte chunks (fuel bounded by the length). -/
def toChunksAux : Nat → List Nat → List (List Nat)
  | 0, _ => []
  | fuel + 1, l => if l.isEmpty then [] else l.take 64 :: toChunksAux fuel (l.drop 64)

def toChunks (l : List Nat) : List (List Nat) :=
  toChunksAux l.length l

/-- The sixteen 32-bit big-endian words of one chunk. -/
def chunkWords (chunk : List Nat) : List Nat :=
  (List.range 16).map (fun i =>
    (chunk.getD (4 * i) 0 <<< 24) ||| (chunk.getD (4 * i + 1) 0 <<< 16) |||
    (chunk.getD (4 * i + 2) 0 <<< 8) ||| chunk.getD (4 * i + 3) 0)

/-- One step of the message-schedule extension.  The first component is a
sliding window of the last 16 words, newest first, so
`w[i-3], w[i-8], w[i-14], w[i-16]` sit at window offsets `2, 7, 13, 15`. -/
def sha1ExtendStep (st : List Nat × List Nat) (_ : Nat) : List Nat × List Nat :=
  let win := st.1
  let x := rotl32 1 (((win.getD 2 0) ^^^ (win.getD 7 0)) ^^^
                     ((win.getD 13 0) ^^^ (win.getD 15 0)))
  (x :: win.take 15, x :: st.2)

/-- Extend 16 words to 80: `w[i] = rotl1 (w[i-3] xor w[i-8] xor w[i-14] xor w[i-16])`. -/
def sha1Extend (w : List Nat) : List Nat :=
  w ++ ((List.range 64).foldl sha1ExtendStep (w.reverse, [])).2.reverse

/-- One round of the SHA-1 compression function; the round index rides in the
first component of the state, the schedule word is consumed in order. -/
def sha1Round (st : Nat × Nat × Nat × Nat × Nat × Nat) (wi : Nat) :
    Nat × Nat × Nat × Nat × Nat × Nat :=
  let i := st.1; let a := st.2.1; let b := st.2.2.1; let c := st.2.2.2.1
  let d := st.2.2.2.2.1; let e := st.2.2.2.2.2
  let f :=
    if i < 20 then (b &&& c) ||| ((b ^^^ 4294967295) &&& d)
    else if i < 40 then (b ^^^ c) ^^^ d
    else if i < 60 then ((b &&& c) ||| (b &&& d)) ||| (c &&& d)
    else (b ^^^ c) ^^^ d
  let k :=
    if i < 20 then 1518500249
    else if i < 40 then 1859775393
    else if i < 60 then 2400959708
    else 3395469782
  let temp := (rotl32 5 a + f + e + k + wi) % mod32
  (i + 1, temp, a, rotl32 30 b, c, d)

/-- Process one 64-byte chunk of the padded message. -/
def sha1Chunk (h : Nat × Nat × Nat × Nat × Nat) (chunk : List Nat) :
    Nat × Nat × Nat × Nat × Nat :=
  let w := sha1Extend (chunkWords chunk)
  let r := (w.foldl sha1Round
    (0, h.1, h.2.1, h.2.2.1, h.2.2.2.1, h.2.2.2.2)).2
  ((h.1 + r.1) % mod32, (h.2.1 + r.2.1) % mod32, (h.2.2.1 + r.2.2.1) % mod32,
   (h.2.2.2.1 + r.2.2.2.1) % mod32, (h.2.2.2.2 + r.2.2.2.2) % mod32)

/-- SHA-1 of a byte list, as a 20-byte digest. -/
def sha1 (msg : List Nat) : List Nat :=
  let h := (toChunks (sha1Pad msg)).foldl sha1Chunk
    (1732584193, 4023233417, 2562383102, 271733878, 3285377520)
  beBytes 4 h.1 ++ beBytes 4 h.2.1 ++ beBytes 4 h.2.2.1 ++
    beBytes 4 h.2.2.2.1 ++ beBytes 4 h.2.2.2.2

/-- HMAC-SHA1 with a 64-byte block size. -/
def hmacSha1 (key msg : List Nat) : List Nat :=
  let k0 := if 64 < key.length then sha1 key else key
  let kPad := k0 ++ List.replicate (64 - k0.length) 0
  sha1 ((kPad.map (fun b => b ^^^ 92)) ++ sha1 ((kPad.map (fun b => b ^^^ 54)) ++ msg))

/-! ### Decimal formatting (`(binary % 10 ** digits).toString().padStart(digits, '0')`) -/

def digitChar (n : Nat) : Char := Char.ofNat (48 + n)

/-- Decimal digits of `n`, most significant first.  The fuel bounds the digit
count; `generateOtp` only formats values below `10 ^ 6` and passes fuel 10. -/
def decDigitsAux : Nat → Nat → List Char
  | 0, _ => []
  | fuel + 1, n =>
      if n < 10 then [digitChar n]
      else decDigitsAux fuel (n / 10) ++ [digitChar (n % 10)]

def decRepr (n : Nat) : String := String.mk (decDigitsAux 10 n)

def padStartZero (len : Nat) (s : String) : String :=
  String.mk (List.replicate (len - s.length) '0' ++ s.toList)

/-! ### OTP generation and verification -/

/-- `generateOtp(secret, counter, digits)`: HMAC-SHA1 over the 8-byte
big-endian counter, RFC 4226 dynamic truncation, zero-padded decimal. -/
def generateOtp (secret : List Nat) (counter : Nat) (digits : Nat) : String :=
  let hmac := hmacSha1 secret (beBytes 8 counter)
  let offset := (hmac.getD (hmac.length - 1) 0) &&& 15
  let binary :=
    (((hmac.getD offset 0) &&& 127) <<< 24) |||
    (((hmac.getD (offset + 1) 0) &&& 255) <<< 16) |||
    (((hmac.getD (offset + 2) 0) &&& 255) <<< 8) |||
    ((hmac.getD (offset + 3) 0) &&& 255)
  padStartZero digits (decRepr (binary % 10 ^ digits))

/-- Default TOTP parameters: `stepSeconds = 30`, `digits = 6`, `window = 1`. -/
def totpStepMillis : Nat := 30000

/-- The counters probed by the `for (offset = -window; ...)` loop for
`window = 1`.  For `counter = 0` the JS code would feed `BigInt(-1)` to
`writeBigUInt64BE` and throw; `Nat` subtraction truncates instead, so theorems
about the window carry a `1 ≤ counter` hypothesis. -/
def windowCounters (counter : Nat) : List Nat :=
  [counter - 1, counter, counter + 1]

/-- `isValidTotpToken(secret, token, { timestamp })` with default options.
The source defaults `timestamp` to `Date.now()`; the model always threads the
caller's clock explicitly. -/
def isValidTotpToken (secret : String) (token : String) (timestamp : Nat) : Bool :=
  if !sixDigitShape token then false
  else
    let secretBytes := base32Decode secret
    let counter := timestamp / totpStepMillis
    (windowCounters counter).any (fun c => generateOtp secretBytes c 6 == token)

/-- `generateTotp(secret, { timestamp })` with default options. -/
def generateTotp (secret : String) (timestamp : Nat) : String :=
  generateOtp (base32Decode secret) (timestamp / totpStepMillis) 6

/-- One backup code from five random bytes:
`base32Encode(bytes).slice(0, 8)` split as `XXXX-XXXX`. -/
def formatBackupCode (seed : List Nat) : String :=
  let raw := (base32Encode seed).toList.take 8
  String.mk (raw.take 4) ++ "-" ++ String.mk (raw.drop 4)

/-- `generateBackupCodes(count)`, with the per-code random 5-byte seeds
supplied by the oracle. -/
def generateBackupCodes (seeds : List (List Nat)) (count : Nat) : List String :=
  (seeds.take count).map formatBackupCode

/-! ## Service configuration and the randomness oracle -/

/-- `BACKUP_CODE_COUNT` from `auth-service.ts`. -/
def BACKUP_CODE_COUNT : Nat := 8

/-- The environment fields the authentication core reads.  Field defaults are
the `EnvSchema` defaults from `src/env.ts` (`MFA_MAX_ATTEMPTS` defaults to 5). -/
structure Env where
  ACCESS_TOKEN_TTL_SECONDS : Nat := 900
  REFRESH_TOKEN_TTL_SECONDS : Nat := 2592000
  MFA_CHALLENGE_TTL_SECONDS : Nat := 600
  MFA_MAX_ATTEMPTS : Nat := 5
  MFA_REMEMBER_DEVICE_DAYS : Nat := 30
  MFA_ENCRYPTION_KEY : String := "test-key"

/-- The random values one service call may draw (`crypto.randomUUID`,
`crypto.randomBytes`, database-generated ids). -/
structure Gen where
  refreshTokenId : String := "rt-new"
  refreshTokenSecret : String := "rt-secret-new"
  challengeId : String := "ch-new"
  newMfaSettingId : String := "mfa-new"
  backupSeeds : List (List Nat) := []
  backupCodeIds : List String := []
  deviceId : String := "dev-new"
  deviceToken : String := "dev-token-new"

/-! ## Service results -/

/-- The claims carried by the signed access token (issuer, audience and the
static role/plan claims omitted). -/
structure AccessTokenClaims where
  sub : String
  email : String
  emailVerified : Bool
  expiresAt : Nat
deriving DecidableEq, Repr

structure AuthTokens where
  accessToken : AccessTokenClaims
  accessTokenExpiresAt : Nat
  refreshToken : String
  refreshTokenExpiresAt : Nat
deriving DecidableEq, Repr

/-- The optional remembered-device token returned to the caller. -/
structure RememberDeviceIssued where
  value : String
  expiresAt : Nat
deriving DecidableEq, Repr

inductive LoginResult where
  | authenticated (user : AuthUser) (tokens : AuthTokens) (emailVerified : Bool)
      (rememberDevice : Option RememberDeviceIssued)
  | mfaChallenge (challengeId : String) (expiresAt : Nat)
deriving DecidableEq, Repr

structure RefreshResult where
  user : AuthUser
  tokens : AuthTokens
deriving DecidableEq, Repr

structure VerifyMfaSetupResult where
  backupCodes : List String
  activatedAt : Nat
deriving DecidableEq, Repr

structure VerifyMfaLoginResult where
  user : AuthUser
  tokens : AuthTokens
  rememberDevice : Option RememberDeviceIssued
deriving DecidableEq, Repr

inductive VerifyMfaChallengeResult where
  | setupCompleted (result : VerifyMfaSetupResult)
  | loginCompleted (result : VerifyMfaLoginResult)
deriving DecidableEq, Repr

structure LoginInput where
  email : String := ""
  password : String := ""
  rememberMe : Bool := false
  challengeId : Option String := none
  mfaCode : Option String := none
  rememberDevice : Bool := false
  rememberedDeviceToken : Option String := none

structure PasswordResetConfirmInput where
  token : String
  newPassword : String

/-! ## The service (`AuthService`)

Each method is a function `... → Store → Except Failure result × Store`:
side effects persisted before a throw remain in the returned store. -/

structure ParsedToken where
  id : String
  secret : String
deriving DecidableEq, Repr

deriving instance DecidableEq for Except

/-- `String.prototype.split` with a single-character separator, over the
character list. -/
def splitOnCharAux (sep : Char) : List Char → List (List Char)
  | [] => [[]]
  | c :: rest =>
      match splitOnCharAux sep rest with
      | [] => [[]]
      | g :: gs => if c == sep then [] :: g :: gs else (c :: g) :: gs

/-- `token.split('.')`. -/
def jsSplitDot (s : String) : List String :=
  (splitOnCharAux '.' s.toList).map String.mk

/-- `parseCompositeToken`: split on `'.'`, demand exactly two non-empty
segments. -/
def parseCompositeToken (token : String) : Option ParsedToken :=
  match jsSplitDot token with
  | [a, b] => if a.isEmpty || b.isEmpty then none else some { id := a, secret := b }
  | _ => none

/-- `AuthService.getActiveMfaConfiguration`: null unless `activatedAt` is set. -/
def getActiveMfaConfiguration (s : Store) (userId : String) :
    Option MfaConfigurationRecord :=
  match getMfaConfiguration s userId with
  | none => none
  | some config => if config.activatedAt.isSome then some config else none

/-- `AuthService.issueSession`.  Remember-me keeps the configured refresh TTL,
otherwise it is capped at 7 days; a supplied `previousTokenId` is revoked and
chained to the fresh token id. -/
def issueSession (env : Env) (g : Gen) (now : Nat) (user : AuthUser)
    (previousTokenId : Option String) (rememberMe : Bool) (s : Store) :
    Except Failure AuthTokens × Store :=
  let accessTokenExpiresAt := now + env.ACCESS_TOKEN_TTL_SECONDS * 1000
  let defaultTtl := env.REFRESH_TOKEN_TTL_SECONDS
  let refreshTtlSeconds := if rememberMe then defaultTtl else min defaultTtl 604800
  let refreshTokenExpiresAt := now + refreshTtlSeconds * 1000
  let tokens : AuthTokens :=
    { accessToken :=
        { sub := user.id, email := user.email
          emailVerified := user.emailVerifiedAt.isSome
          expiresAt := accessTokenExpiresAt }
      accessTokenExpiresAt := accessTokenExpiresAt
      refreshToken := g.refreshTokenId ++ "." ++ g.refreshTokenSecret
      refreshTokenExpiresAt := refreshTokenExpiresAt }
  let s1 := saveRefreshToken s
    { id := g.refreshTokenId, userId := user.id
      tokenHash := .hashOf g.refreshTokenSecret
      issuedAt := now, expiresAt := refreshTokenExpiresAt
      revokedAt := none, replacedByTokenId := none }
  match previousTokenId with
  | some prev =>
      match revokeRefreshToken s1 prev now (some g.refreshTokenId) with
      | none => (.error .storageRaise, s1)
      | some s2 => (.ok tokens, s2)
  | none => (.ok tokens, s1)

/-- `AuthService.createRememberedDevice`. -/
def createRememberedDevice (env : Env) (g : Gen) (now : Nat) (userMfaId : String)
    (s : Store) : RememberDeviceIssued × Store :=
  let expiresAt := now + env.MFA_REMEMBER_DEVICE_DAYS * 24 * 60 * 60 * 1000
  let record : RememberedDeviceRecord :=
    { id := g.deviceId, userMfaId := userMfaId
      tokenHash := .hashOf g.deviceToken, expiresAt := expiresAt
      lastUsedAt := none }
  ({ value := g.deviceToken, expiresAt := expiresAt },
   { s with rememberedDevices := s.rememberedDevices ++ [record] })

/-- The scan loop of `AuthService.validateRememberedDevice`: skip expired
devices, verify the hash with `.catch(() => false)`, stamp `lastUsedAt` on the
first match. -/
def rememberedDeviceScan (devices : List RememberedDeviceRecord) (token : String)
    (now : Nat) (s : Store) : Option String × Store :=
  match devices with
  | [] => (none, s)
  | device :: rest =>
      if device.expiresAt < now then rememberedDeviceScan rest token now s
      else
        let valid := match argon2Verify device.tokenHash token with
          | .ok b => b
          | .error _ => false
        if valid then (some device.id, updateRememberedDevice s device.id now)
        else rememberedDeviceScan rest token now s

/-- `AuthService.validateRememberedDevice`: null for a missing token,
otherwise scan, then opportunistically prune expired devices. -/
def validateRememberedDevice (setting : MfaConfigurationRecord)
    (token : Option String) (now : Nat) (s : Store) : Option String × Store :=
  if !jsTruthy token then (none, s)
  else
    let scanned := rememberedDeviceScan (listRememberedDevices s setting.id)
      (token.getD "") now s
    (scanned.1, deleteExpiredRememberedDevices scanned.2 setting.id now)

/-- `AuthService.registerFailedMfaAttempt`: persist `attempts + 1`; at
`MFA_MAX_ATTEMPTS` delete the challenge and throw `ChallengeLocked`, otherwise
throw `CodeIncorrect`.  Always throws; the store carries the side effects. -/
def registerFailedMfaAttempt (env : Env) (challenge : MfaChallengeRecord)
    (s : Store) : Failure × Store :=
  let nextAttempts := challenge.attempts + 1
  match incrementMfaChallengeAttempts s challenge.id nextAttempts with
  | none => (.storageRaise, s)
  | some s1 =>
      if env.MFA_MAX_ATTEMPTS ≤ nextAttempts then
        match deleteMfaChallenge s1 challenge.id with
        | none => (.storageRaise, s1)
        | some s2 => (.authError .challengeLocked, s2)
      else (.authError .codeIncorrect, s1)

/-- The loop body of `AuthService.consumeBackupCode`: skip used codes, verify
the argon2 hash (uncaught), mark the first match used. -/
def consumeBackupCodeScan (codes : List BackupCodeRecord) (code : String)
    (now : Nat) (s : Store) : Except Failure Bool × Store :=
  match codes with
  | [] => (.ok false, s)
  | record :: rest =>
      if record.usedAt.isSome then consumeBackupCodeScan rest code now s
      else
        match argon2Verify record.codeHash code with
        | .error _ => (.error .argon2Raise, s)
        | .ok true =>
            match markBackupCodeUsed s record.id now with
            | none => (.error .storageRaise, s)
            | some s1 => (.ok true, s1)
        | .ok false => consumeBackupCodeScan rest code now s

/-- `AuthService.consumeBackupCode`. -/
def consumeBackupCode (userMfaId : String) (code : String) (now : Nat)
    (s : Store) : Except Failure Bool × Store :=
  consumeBackupCodeScan (listMfaBackupCodes s userMfaId) code now s

/-- The factor-dispatch block of `completeLoginChallenge`: a six-digit code
goes through TOTP, a backup-shaped code through single-use consumption,
anything else is an automatic failure.  `.ok b` reports `usingBackupCode`. -/
def verifyLoginFactor (env : Env) (secret : String)
    (setting : MfaConfigurationRecord) (challenge : MfaChallengeRecord)
    (code : String) (now : Nat) (s : Store) : Except Failure Bool × Store :=
  if sixDigitShape code then
    if isValidTotpToken secret code now then (.ok false, s)
    else
      let failed := registerFailedMfaAttempt env challenge s
      (.error failed.1, failed.2)
  else if backupCodeShape (jsToUpper code) then
    match consumeBackupCode setting.id (jsToUpper code) now s with
    | (.error f, s1) => (.error f, s1)
    | (.ok true, s1) => (.ok true, s1)
    | (.ok false, s1) =>
        let failed := registerFailedMfaAttempt env challenge s1
        (.error failed.1, failed.2)
  else
    let failed := registerFailedMfaAttempt env challenge s
    (.error failed.1, failed.2)

/-- The tail of `completeLoginChallenge` after the factor has been accepted:
consume the challenge, read the remember-me context from the consumed row,
issue the session, optionally create a remembered device, stamp last login. -/
def finishLoginChallenge (env : Env) (g : Gen) (now : Nat)
    (challenge : MfaChallengeRecord) (setting : MfaConfigurationRecord)
    (rememberDevice : Bool) (usingBackupCode : Bool) (s : Store) :
    Except Failure VerifyMfaLoginResult × Store :=
  let consumedPair := consumeMfaChallenge s challenge.id now
  let s1 := consumedPair.2
  let rememberMe := match consumedPair.1 with
    | some c => (c.context.map (fun ctx => ctx.rememberMe)).getD false
    | none => false
  match findUserById s1 challenge.userId with
  | none => (.error (.authError .invalidCredentials), s1)
  | some userRecord =>
      let user := stripPassword userRecord
      match issueSession env g now user none rememberMe s1 with
      | (.error f, s2) => (.error f, s2)
      | (.ok tokens, s2) =>
          let devicePair :=
            if rememberDevice && !usingBackupCode then
              let created := createRememberedDevice env g now setting.id s2
              (some created.1, created.2)
            else (none, s2)
          match updateLastLogin devicePair.2 user.id now with
          | none => (.error .storageRaise, devicePair.2)
          | some s4 =>
              (.ok { user := user, tokens := tokens
                     rememberDevice := devicePair.1 }, s4)

/-- `AuthService.completeLoginChallenge`.  Note: the challenge is re-fetched
and checked for existence and expiry, but — unlike `verifyMfaChallenge` —
`consumedAt` is never inspected on this path. -/
def completeLoginChallenge (env : Env) (g : Gen) (now : Nat)
    (challengeId : String) (code : String) (rememberDevice : Bool) (s : Store) :
    Except Failure VerifyMfaLoginResult × Store :=
  match findMfaChallengeById s challengeId with
  | none => (.error (.authError .challengeInvalid), s)
  | some challenge =>
      if challenge.expiresAt < now then
        match deleteMfaChallenge s challenge.id with
        | none => (.error .storageRaise, s)
        | some s1 => (.error (.authError .challengeExpired), s1)
      else
        match getActiveMfaConfiguration s challenge.userId with
        | none =>
            match deleteMfaChallenge s challenge.id with
            | none => (.error .storageRaise, s)
            | some s1 => (.error (.authError .challengeInvalid), s1)
        | some setting =>
            match decryptSecret setting.secretEncrypted env.MFA_ENCRYPTION_KEY with
            | .error _ => (.error .decryptRaise, s)
            | .ok secret =>
                match verifyLoginFactor env secret setting challenge code now s with
                | (.error f, s1) => (.error f, s1)
                | (.ok usingBackupCode, s1) =>
                    finishLoginChallenge env g now challenge setting
                      rememberDevice usingBackupCode s1

/-- `AuthService.completeSetupChallenge`: verify against the decrypted pending
secret, activate the configuration, replace the backup-code set wholesale,
consume the challenge, return the plaintext codes. -/
def completeSetupChallenge (env : Env) (g : Gen) (now : Nat)
    (challenge : MfaChallengeRecord) (code : String) (s : Store) :
    Except Failure VerifyMfaSetupResult × Store :=
  match challenge.secretEncrypted with
  | none => (.error (.authError .challengeInvalid), s)
  | some enc =>
      match decryptSecret enc env.MFA_ENCRYPTION_KEY with
      | .error _ => (.error .decryptRaise, s)
      | .ok secret =>
          if !isValidTotpToken secret code now then
            let failed := registerFailedMfaAttempt env challenge s
            (.error failed.1, failed.2)
          else
            let activatedAt := now
            let settingPair := upsertMfaSetting s
              { userId := challenge.userId, secretEncrypted := enc
                deviceName := challenge.deviceName
                activatedAt := some activatedAt } g.newMfaSettingId
            let setting := settingPair.1
            let backupCodes :=
              (generateBackupCodes g.backupSeeds BACKUP_CODE_COUNT).map jsToUpper
            let hashedCodes :=
              (backupCodes.zip (g.backupCodeIds.take BACKUP_CODE_COUNT)).map
                (fun vc => (vc.2, Argon2Hash.hashOf vc.1))
            let s2 := replaceMfaBackupCodes settingPair.2 setting.id hashedCodes
            let s3 := (consumeMfaChallenge s2 challenge.id activatedAt).2
            (.ok { backupCodes := backupCodes, activatedAt := activatedAt }, s3)

/-- `AuthService.verifyMfaChallenge`: look up the challenge, expire it if past
`expiresAt`, reject an already consumed one, then dispatch on its stored type. -/
def verifyMfaChallenge (env : Env) (g : Gen) (now : Nat) (challengeId : String)
    (code : String) (rememberDevice : Bool) (s : Store) :
    Except Failure VerifyMfaChallengeResult × Store :=
  match findMfaChallengeById s challengeId with
  | none => (.error (.authError .challengeInvalid), s)
  | some challenge =>
      if challenge.expiresAt < now then
        match deleteMfaChallenge s challenge.id with
        | none => (.error .storageRaise, s)
        | some s1 => (.error (.authError .challengeExpired), s1)
      else if challenge.consumedAt.isSome then
        (.error (.authError .challengeInvalid), s)
      else
        match challenge.ctype with
        | .setup =>
            match completeSetupChallenge env g now challenge code s with
            | (.error f, s1) => (.error f, s1)
            | (.ok r, s1) => (.ok (.setupCompleted r), s1)
        | .login =>
            match completeLoginChallenge env g now challengeId code
              rememberDevice s with
            | (.error f, s1) => (.error f, s1)
            | (.ok r, s1) => (.ok (.loginCompleted r), s1)
        | .recovery => (.error (.authError .challengeInvalid), s)

/-- `AuthService.login`.  A request carrying a (truthy) challenge id and MFA
code is routed straight to `completeLoginChallenge`; otherwise credentials are
checked and either a session is issued, a remembered device bypasses MFA, or a
login challenge is created. -/
def login (env : Env) (g : Gen) (now : Nat) (input : LoginInput) (s : Store) :
    Except Failure LoginResult × Store :=
  if jsTruthy input.challengeId && jsTruthy input.mfaCode then
    match completeLoginChallenge env g now (input.challengeId.getD "")
      (input.mfaCode.getD "") input.rememberDevice s with
    | (.error f, s1) => (.error f, s1)
    | (.ok r, s1) =>
        (.ok (.authenticated r.user r.tokens r.user.emailVerifiedAt.isSome
          r.rememberDevice), s1)
  else
    match findUserByEmail s (normalizeEmail input.email) with
    | none => (.error (.authError .invalidCredentials), s)
    | some record =>
        match argon2Verify record.passwordHash input.password with
        | .error _ => (.error .argon2Raise, s)
        | .ok false => (.error (.authError .invalidCredentials), s)
        | .ok true =>
            if record.status == .suspended then
              (.error (.authError .accountSuspended), s)
            else
              let user := stripPassword record
              match getActiveMfaConfiguration s user.id with
              | none =>
                  match issueSession env g now user none input.rememberMe s with
                  | (.error f, s1) => (.error f, s1)
                  | (.ok tokens, s1) =>
                      match updateLastLogin s1 user.id now with
                      | none => (.error .storageRaise, s1)
                      | some s2 =>
                          (.ok (.authenticated user tokens
                            user.emailVerifiedAt.isSome none), s2)
              | some mfaConfig =>
                  let rememberedPair := validateRememberedDevice mfaConfig
                    input.rememberedDeviceToken now s
                  match rememberedPair.1 with
                  | some _ =>
                      match issueSession env g now user none input.rememberMe
                        rememberedPair.2 with
                      | (.error f, s1) => (.error f, s1)
                      | (.ok tokens, s1) =>
                          match updateLastLogin s1 user.id now with
                          | none => (.error .storageRaise, s1)
                          | some s2 =>
                              (.ok (.authenticated user tokens
                                user.emailVerifiedAt.isSome none), s2)
                  | none =>
                      let challenge : MfaChallengeRecord :=
                        { id := g.challengeId, userId := user.id
                          userMfaId := some mfaConfig.id, ctype := .login
                          secretEncrypted := none, deviceName := none
                          context := some { rememberMe := input.rememberMe }
                          expiresAt := now + env.MFA_CHALLENGE_TTL_SECONDS * 1000
                          consumedAt := none, attempts := 0 }
                      (.ok (.mfaChallenge challenge.id challenge.expiresAt),
                       { rememberedPair.2 with mfaChallenges :=
                           rememberedPair.2.mfaChallenges ++ [challenge] })

/-- `AuthService.refreshSession`: parse, look up, then the revoked / expired /
hash-mismatch / suspended checks in source order, each later failure revoking
the presented token; on success rotate via `issueSession`. -/
def refreshSession (env : Env) (g : Gen) (now : Nat) (refreshToken : String)
    (s : Store) : Except Failure RefreshResult × Store :=
  match parseCompositeToken refreshToken with
  | none => (.error (.authError .invalidRefreshToken), s)
  | some parsed =>
      match findRefreshTokenById s parsed.id with
      | none => (.error (.authError .invalidRefreshToken), s)
      | some (record, userRecord) =>
          if record.revokedAt.isSome then
            (.error (.authError .refreshTokenRevoked), s)
          else if record.expiresAt ≤ now then
            match revokeRefreshToken s record.id now none with
            | none => (.error .storageRaise, s)
            | some s1 => (.error (.authError .refreshTokenExpired), s1)
          else
            match argon2Verify record.tokenHash parsed.secret with
            | .error _ => (.error .argon2Raise, s)
            | .ok false =>
                match revokeRefreshToken s record.id now none with
                | none => (.error .storageRaise, s)
                | some s1 => (.error (.authError .invalidRefreshToken), s1)
            | .ok true =>
                if userRecord.status == .suspended then
                  match revokeRefreshToken s record.id now none with
                  | none => (.error .storageRaise, s)
                  | some s1 => (.error (.authError .accountSuspended), s1)
                else
                  let user := stripPassword userRecord
                  match issueSession env g now user (some record.id) false s with
                  | (.error f, s1) => (.error f, s1)
                  | (.ok tokens, s1) =>
                      (.ok { user := user, tokens := tokens }, s1)

/-- `AuthService.resetPassword`: consume the reset token, rehash, revoke every
outstanding refresh token of the user. -/
def resetPassword (now : Nat) (input : PasswordResetConfirmInput) (s : Store) :
    Except Failure AuthUser × Store :=
  match consumePasswordResetToken s input.token now with
  | (none, s0) => (.error (.authError .resetTokenInvalid), s0)
  | (some record, s1) =>
      match findUserById s1 record.userId with
      | none => (.error (.authError .resetTokenInvalid), s1)
      | some user =>
          match updatePasswordHash s1 user.id (.hashOf input.newPassword) with
          | none => (.error .storageRaise, s1)
          | some s2 =>
              (.ok (stripPassword user),
               revokeRefreshTokensForUser s2 user.id now)

/-! ## Concrete fixtures

A user with an activated TOTP configuration, one backup code, and assorted
challenge / token states.  The secret is the RFC 6238 test secret
(base32 of `12345678901234567890`). -/

def sampleSecret : String := "GEZDGNBVGY3TQOJQGEZDGNBVGY3TQOJQ"

def defaultEnv : Env := {}

def sampleGen : Gen := {}

def sampleEnc : EncryptedSecret := .payload sampleSecret "test-key"

def sampleUser : UserRecord :=
  { id := "u1", email := "a@x.com", status := .active
    passwordHash := .hashOf "pw", emailVerifiedAt := some 1, lastLoginAt := none }

def sampleMfa : MfaConfigurationRecord :=
  { id := "m1", userId := "u1", secretEncrypted := sampleEnc
    deviceName := none, activatedAt := some 10 }

def sampleBackupCode : BackupCodeRecord :=
  { id := "b1", userMfaId := "m1", codeHash := .hashOf "AAAA-AAAA", usedAt := none }

/-- A login challenge that was already consumed (at 50) and expires far in the
future. -/
def consumedChallenge : MfaChallengeRecord :=
  { id := "c1", userId := "u1", userMfaId := some "m1", ctype := .login
    secretEncrypted := none, deviceName := none
    context := some { rememberMe := true }
    expiresAt := 1000000, consumedAt := some 50, attempts := 0 }

/-- The same login challenge, still live (never consumed). -/
def liveChallenge : MfaChallengeRecord :=
  { consumedChallenge with consumedAt := none }

def consumedChallengeStore : Store :=
  { users := [sampleUser], refreshTokens := [], mfaSettings := [sampleMfa]
    mfaChallenges := [consumedChallenge], backupCodes := [sampleBackupCode]
    rememberedDevices := [], passwordResetTokens := [] }

def liveChallengeStore : Store :=
  { consumedChallengeStore with mfaChallenges := [liveChallenge] }

/-- A refresh token that was already revoked (at 100) and chained to `rt-x`. -/
def revokedToken : RefreshTokenRecord :=
  { id := "t1", userId := "u1", tokenHash := .hashOf "sec1", issuedAt := 0
    expiresAt := 1000000, revokedAt := some 100, replacedByTokenId := some "rt-x" }

def revokedTokenStore : Store :=
  { consumedChallengeStore with refreshTokens := [revokedToken] }

/-! ## C1 -/

/-- Decides whether a login result is an authenticated success carrying
session tokens. -/
def isAuthenticatedResult : Except Failure LoginResult → Bool
  | .ok (.authenticated _ _ _ _) => true
  | _ => false

/-- C1: for a consumed, unexpired MFA challenge the claim holds on the
`verifyMfaChallenge` path (ChallengeInvalid) but fails on the `login` path:
`login` forwards straight to `completeLoginChallenge`, which never inspects
`consumedAt`, so a correct code replayed against the consumed challenge is
accepted and a fresh session (access + refresh token) is issued. -/
theorem consumed_login_challenge_replay_issues_tokens :
    (verifyMfaChallenge defaultEnv sampleGen 100 "c1" "AAAA-AAAA" false
        consumedChallengeStore).1
      = .error (.authError .challengeInvalid)
    ∧ isAuthenticatedResult
        (login defaultEnv sampleGen 100
          { challengeId := some "c1", mfaCode := some "AAAA-AAAA" }
          consumedChallengeStore).1 = true
    ∧ (login defaultEnv sampleGen 100
          { challengeId := some "c1", mfaCode := some "AAAA-AAAA" }
          consumedChallengeStore).2.refreshTokens.length = 1 := by
  decide

/-! ## C2 -/

/-- C2: neither storage update is conditional.  Two interleaved verify calls
can both read the challenge while `consumedAt` is still null, and then both
`consumeMfaChallenge` writes succeed (the second overwrites the first); an
already revoked refresh token is happily re-revoked, overwriting `revokedAt`
and clearing its rotation chain, instead of failing a
`revoke-if-not-revoked` condition. -/
theorem challenge_consume_and_token_revoke_updates_unconditional :
    ((findMfaChallengeById liveChallengeStore "c1").map
        (fun c => c.consumedAt) = some none
      ∧ (consumeMfaChallenge liveChallengeStore "c1" 200).1.isSome = true
      ∧ (consumeMfaChallenge (consumeMfaChallenge liveChallengeStore "c1" 200).2
          "c1" 300).1.isSome = true
      ∧ (findMfaChallengeById
          (consumeMfaChallenge (consumeMfaChallenge liveChallengeStore "c1" 200).2
            "c1" 300).2 "c1").map (fun c => c.consumedAt) = some (some 300))
    ∧ ((revokeRefreshToken revokedTokenStore "t1" 400 none).isSome = true
      ∧ ((revokeRefreshToken revokedTokenStore "t1" 400 none).map
          (fun s => s.refreshTokens.map (fun r =>
            (r.revokedAt, r.replacedByTokenId))))
        = some [(some 400, none)]) := by
  decide

/-! ## C5 -/

def malformedHashUser : UserRecord :=
  { id := "u2", email := "b@x.com", status := .active
    passwordHash := .malformed "plain-md5"
    emailVerifiedAt := some 1, lastLoginAt := none }

def malformedHashStore : Store :=
  { consumedChallengeStore with users := [malformedHashUser] }

/-- C5: the node-argon2 model's premise — `verify` rejects on a malformed
stored hash instead of returning false — and its consequence in `login`:
`AuthService.login` calls `argon2.verify(record.passwordHash, password)`
without a catch (only `validateRememberedDevice` has `.catch(() => false)`),
so a user whose persisted hash is malformed gets the propagated argon2
rejection, not the typed InvalidCredentials failure. -/
theorem login_propagates_malformed_hash_error :
    argon2Verify (.malformed "plain-md5") "pw" = .error ()
    ∧ (login defaultEnv sampleGen 100 { email := "b@x.com", password := "pw" }
        malformedHashStore).1 = .error .argon2Raise
    ∧ (Failure.argon2Raise ≠ Failure.authError .invalidCredentials) := by
  decide

/-! ## General list helpers -/

lemma any_eq_true_of_find?_eq_some {α : Type} {p : α → Bool} {l : List α} {x : α}
    (h : l.find? p = some x) : l.any p = true :=
  List.any_eq_true.mpr ⟨x, List.mem_of_find?_eq_some h, List.find?_some h⟩

lemma find?_map_of_pred_invariant {α : Type} {p : α → Bool} (f : α → α)
    (l : List α) (h : ∀ x, p (f x) = p x) :
    (l.map f).find? p = (l.find? p).map f := by
  rw [List.find?_map]
  have hc : (p ∘ f) = p := funext h
  rw [hc]

/-! ## C4 -/

/-- No unused backup code of the configuration hashes the submitted code
(and every stored hash is well-formed, so the scan cannot raise). -/
def noUnusedBackupMatch (s : Store) (userMfaId : String) (code : String) : Prop :=
  ∀ r ∈ listMfaBackupCodes s userMfaId, r.usedAt = none →
    ∃ v, r.codeHash = .hashOf v ∧ v ≠ code

lemma consumeBackupCodeScan_no_match (codes : List BackupCodeRecord)
    (code : String) (now : Nat) (s : Store)
    (h : ∀ r ∈ codes, r.usedAt = none → ∃ v, r.codeHash = .hashOf v ∧ v ≠ code) :
    consumeBackupCodeScan codes code now s = (.ok false, s) := by
  induction codes with
  | nil => rfl
  | cons r rest ih =>
      have hrest : ∀ x ∈ rest, x.usedAt = none →
          ∃ v, x.codeHash = .hashOf v ∧ v ≠ code :=
        fun x hx => h x (List.mem_cons_of_mem r hx)
      cases hr : r.usedAt with
      | some t =>
          simp only [consumeBackupCodeScan, hr, Option.isSome_some, if_true]
          exact ih hrest
      | none =>
          obtain ⟨v, hv, hne⟩ := h r (List.mem_cons_self r rest) hr
          have hbeq : (v == code) = false := by
            simpa using hne
          simp only [consumeBackupCodeScan, hr, Option.isSome_none,
            Bool.false_eq_true, if_false, hv, argon2Verify, hbeq]
          exact ih hrest

/-- `incrementMfaChallengeAttempts` then (at the limit) `deleteMfaChallenge`:
the locked challenge no longer resolves. -/
lemma registerFailedMfaAttempt_lock (env : Env) (ch : MfaChallengeRecord)
    (s : Store) (hFind : findMfaChallengeById s ch.id = some ch)
    (hMax : env.MFA_MAX_ATTEMPTS ≤ ch.attempts + 1) :
    (registerFailedMfaAttempt env ch s).1 = .authError .challengeLocked
    ∧ findMfaChallengeById (registerFailedMfaAttempt env ch s).2 ch.id = none := by
  have hAny : s.mfaChallenges.any (fun c => c.id == ch.id) = true :=
    any_eq_true_of_find?_eq_some hFind
  have hAnyMap : (s.mfaChallenges.map (fun c =>
      if c.id == ch.id then { c with attempts := ch.attempts + 1 } else c)).any
        (fun c => c.id == ch.id) = true := by
    rw [List.any_map]
    have : ((fun c => c.id == ch.id) ∘ (fun c : MfaChallengeRecord =>
        if c.id == ch.id then { c with attempts := ch.attempts + 1 } else c))
        = fun c => c.id == ch.id := by
      funext x
      by_cases hx : (x.id == ch.id) = true <;> simp [Function.comp, hx]
    rw [this]
    exact hAny
  constructor
  · simp only [registerFailedMfaAttempt, incrementMfaChallengeAttempts, hAny,
      if_true, hMax, deleteMfaChallenge, hAnyMap]
  · simp only [registerFailedMfaAttempt, incrementMfaChallengeAttempts, hAny,
      if_true, hMax, deleteMfaChallenge, hAnyMap, findMfaChallengeById]
    rw [List.find?_eq_none]
    intro x hx
    have := List.of_mem_filter hx
    simpa using this

/-- Below the limit: the attempt counter is persisted and the challenge
still resolves, with `attempts` incremented by one. -/
lemma registerFailedMfaAttempt_incr (env : Env) (ch : MfaChallengeRecord)
    (s : Store) (hFind : findMfaChallengeById s ch.id = some ch)
    (hLt : ch.attempts + 1 < env.MFA_MAX_ATTEMPTS) :
    (registerFailedMfaAttempt env ch s).1 = .authError .codeIncorrect
    ∧ findMfaChallengeById (registerFailedMfaAttempt env ch s).2 ch.id
      = some { ch with attempts := ch.attempts + 1 } := by
  have hAny : s.mfaChallenges.any (fun c => c.id == ch.id) = true :=
    any_eq_true_of_find?_eq_some hFind
  have hNotMax : ¬ env.MFA_MAX_ATTEMPTS ≤ ch.attempts + 1 := by omega
  constructor
  · simp only [registerFailedMfaAttempt, incrementMfaChallengeAttempts, hAny,
      if_true, hNotMax, if_false]
  · simp only [registerFailedMfaAttempt, incrementMfaChallengeAttempts, hAny,
      if_true, hNotMax, if_false, findMfaChallengeById]
    rw [find?_map_of_pred_invariant _ _ (fun x => by
      by_cases hx : (x.id == ch.id) = true <;> simp [hx])]
    rw [show s.mfaChallenges.find? (fun c => c.id == ch.id) = some ch from hFind]
    simp

/-- A failed factor — wrong TOTP code, failed backup-code consumption, or a
code of neither shape — routes a live login challenge into
`registerFailedMfaAttempt`, whose outcome (error and store) is returned. -/
lemma verifyMfaChallenge_failed_factor (env : Env) (g : Gen) (now : Nat)
    (s : Store) (ch : MfaChallengeRecord) (setting : MfaConfigurationRecord)
    (secret code : String)
    (hFind : findMfaChallengeById s ch.id = some ch)
    (hType : ch.ctype = .login)
    (hNotExp : ¬ ch.expiresAt < now)
    (hNotCons : ch.consumedAt = none)
    (hActive : getActiveMfaConfiguration s ch.userId = some setting)
    (hSecret : decryptSecret setting.secretEncrypted env.MFA_ENCRYPTION_KEY
      = .ok secret)
    (hFail : (sixDigitShape code = true ∧ isValidTotpToken secret code now = false)
      ∨ (sixDigitShape code = false ∧ backupCodeShape (jsToUpper code) = true
          ∧ noUnusedBackupMatch s setting.id (jsToUpper code))
      ∨ (sixDigitShape code = false ∧ backupCodeShape (jsToUpper code) = false)) :
    verifyMfaChallenge env g now ch.id code false s
      = (.error (registerFailedMfaAttempt env ch s).1,
         (registerFailedMfaAttempt env ch s).2) := by
  have hFactor : verifyLoginFactor env secret setting ch code now s
      = (.error (registerFailedMfaAttempt env ch s).1,
         (registerFailedMfaAttempt env ch s).2) := by
    rcases hFail with ⟨h6, hTot⟩ | ⟨h6, hb, hnm⟩ | ⟨h6, hb⟩
    · simp [verifyLoginFactor, h6, hTot]
    · have hscan := consumeBackupCodeScan_no_match
        (listMfaBackupCodes s setting.id) (jsToUpper code) now s hnm
      simp [verifyLoginFactor, h6, hb, consumeBackupCode, hscan]
    · simp [verifyLoginFactor, h6, hb]
  have hComplete : completeLoginChallenge env g now ch.id code false s
      = (.error (registerFailedMfaAttempt env ch s).1,
         (registerFailedMfaAttempt env ch s).2) := by
    simp [completeLoginChallenge, hFind, hNotExp, hActive, hSecret, hFactor]
  simp [verifyMfaChallenge, hFind, hNotExp, hNotCons, hType, hComplete]

/-- Six consecutive wrong-code submissions against the live login challenge of
`liveChallengeStore`, under the default environment: store after `n` attempts. -/
def c4State : Nat → Store
  | 0 => liveChallengeStore
  | n + 1 => (verifyMfaChallenge defaultEnv sampleGen 100 "c1" "zz" false
      (c4State n)).2

/-- Outcome of the `n`-th consecutive wrong-code submission (1-based). -/
def c4Outcome (n : Nat) : Except Failure VerifyMfaChallengeResult :=
  (verifyMfaChallenge defaultEnv sampleGen 100 "c1" "zz" false
    (c4State (n - 1))).1

/-- C4, counterexample: with the configured default of 5 max attempts, six
consecutive wrong codes lock the challenge on the 5th submission, not the 6th:
the 6th finds the challenge already deleted and yields ChallengeInvalid. -/
theorem sixth_wrong_code_not_locked :
    defaultEnv.MFA_MAX_ATTEMPTS = 5
    ∧ c4Outcome 5 = .error (.authError .challengeLocked)
    ∧ c4Outcome 6 = .error (.authError .challengeInvalid)
    ∧ ¬ c4Outcome 6 = .error (.authError .challengeLocked) := by
  decide

/-- C4 (amended): for every failed verification of a live login challenge —
wrong TOTP code, failed backup-code consumption, or a code of neither shape —
the attempts counter is incremented by one and persisted; if the incremented
count reaches `MFA_MAX_ATTEMPTS` (default 5) the challenge is deleted and
ChallengeLocked raised, otherwise CodeIncorrect; a deleted challenge id yields
ChallengeInvalid; so in the spec's scenario the 5th of six consecutive wrong
codes raises ChallengeLocked and the 6th yields ChallengeInvalid. -/
theorem failed_mfa_attempt_lockout_behavior :
    (∀ (env : Env) (g : Gen) (now : Nat) (s : Store) (ch : MfaChallengeRecord)
        (setting : MfaConfigurationRecord) (secret code : String),
      findMfaChallengeById s ch.id = some ch →
      ch.ctype = .login →
      ¬ ch.expiresAt < now →
      ch.consumedAt = none →
      getActiveMfaConfiguration s ch.userId = some setting →
      decryptSecret setting.secretEncrypted env.MFA_ENCRYPTION_KEY = .ok secret →
      ((sixDigitShape code = true ∧ isValidTotpToken secret code now = false)
        ∨ (sixDigitShape code = false ∧ backupCodeShape (jsToUpper code) = true
            ∧ noUnusedBackupMatch s setting.id (jsToUpper code))
        ∨ (sixDigitShape code = false ∧ backupCodeShape (jsToUpper code) = false)) →
      (env.MFA_MAX_ATTEMPTS ≤ ch.attempts + 1 →
        (verifyMfaChallenge env g now ch.id code false s).1
          = .error (.authError .challengeLocked)
        ∧ findMfaChallengeById
            (verifyMfaChallenge env g now ch.id code false s).2 ch.id = none)
      ∧ (ch.attempts + 1 < env.MFA_MAX_ATTEMPTS →
        (verifyMfaChallenge env g now ch.id code false s).1
          = .error (.authError .codeIncorrect)
        ∧ findMfaChallengeById
            (verifyMfaChallenge env g now ch.id code false s).2 ch.id
          = some { ch with attempts := ch.attempts + 1 }))
    ∧ (∀ (env : Env) (g : Gen) (now : Nat) (s : Store) (id code : String),
        findMfaChallengeById s id = none →
        (verifyMfaChallenge env g now id code false s).1
          = .error (.authError .challengeInvalid))
    ∧ (c4Outcome 1 = .error (.authError .codeIncorrect)
      ∧ c4Outcome 2 = .error (.authError .codeIncorrect)
      ∧ c4Outcome 3 = .error (.authError .codeIncorrect)
      ∧ c4Outcome 4 = .error (.authError .codeIncorrect)
      ∧ c4Outcome 5 = .error (.authError .challengeLocked)
      ∧ c4Outcome 6 = .error (.authError .challengeInvalid)) := by
  refine ⟨?_, ?_, by decide⟩
  · intro env g now s ch setting secret code hFind hType hNotExp hNotCons
      hActive hSecret hFail
    have hrun := verifyMfaChallenge_failed_factor env g now s ch setting secret
      code hFind hType hNotExp hNotCons hActive hSecret hFail
    constructor
    · intro hMax
      have hspec := registerFailedMfaAttempt_lock env ch s hFind hMax
      rw [hrun]
      exact ⟨by rw [hspec.1], hspec.2⟩
    · intro hLt
      have hspec := registerFailedMfaAttempt_incr env ch s hFind hLt
      rw [hrun]
      exact ⟨by rw [hspec.1], hspec.2⟩
  · intro env g now s id code hNone
    simp [verifyMfaChallenge, hNone]

/-- C4 witness: the general lockout rule applied to a concrete live challenge
and a neither-shape code `"zz"`: one attempt below the limit yields
CodeIncorrect with the counter persisted at 1. -/
theorem failed_mfa_attempt_lockout_behavior_witness :
    (verifyMfaChallenge defaultEnv sampleGen 100 "c1" "zz" false
        liveChallengeStore).1 = .error (.authError .codeIncorrect)
    ∧ findMfaChallengeById
        (verifyMfaChallenge defaultEnv sampleGen 100 "c1" "zz" false
          liveChallengeStore).2 "c1"
      = some { liveChallenge with attempts := 1 } :=
  (failed_mfa_attempt_lockout_behavior.1 defaultEnv sampleGen 100
    liveChallengeStore liveChallenge sampleMfa sampleSecret "zz"
    (by decide) (by decide) (by decide) (by decide) (by decide) (by decide)
    (Or.inr (Or.inr (by decide)))).2 (by decide)

/-! ## C10 -/

/-- The refresh token row `issueSession` persists. -/
def issuedRefreshRecord (env : Env) (g : Gen) (now : Nat) (user : AuthUser)
    (rememberMe : Bool) : RefreshTokenRecord :=
  { id := g.refreshTokenId, userId := user.id
    tokenHash := .hashOf g.refreshTokenSecret, issuedAt := now
    expiresAt := now + (if rememberMe then env.REFRESH_TOKEN_TTL_SECONDS
      else min env.REFRESH_TOKEN_TTL_SECONDS 604800) * 1000
    revokedAt := none, replacedByTokenId := none }

/-- C10: every successful issuance stamps the refresh-token TTL as the
configured default under rememberMe and `min(default, 7 days)` otherwise;
without a previous token id the store just gains the fresh row; with a
previous token id (as on refresh) the prior row is revoked at `now` with
`replacedByTokenId` chained to the fresh token's id, as part of issuance. -/
theorem issueSession_ttl_and_rotation_chain :
    (∀ (env : Env) (g : Gen) (now : Nat) (user : AuthUser)
        (prev : Option String) (rememberMe : Bool) (s : Store)
        (tokens : AuthTokens) (s' : Store),
      issueSession env g now user prev rememberMe s = (.ok tokens, s') →
      tokens.refreshTokenExpiresAt
        = now + (if rememberMe then env.REFRESH_TOKEN_TTL_SECONDS
            else min env.REFRESH_TOKEN_TTL_SECONDS 604800) * 1000)
    ∧ (∀ (env : Env) (g : Gen) (now : Nat) (user : AuthUser)
        (rememberMe : Bool) (s : Store),
      (issueSession env g now user none rememberMe s).2.refreshTokens
        = s.refreshTokens ++ [issuedRefreshRecord env g now user rememberMe])
    ∧ (∀ (env : Env) (g : Gen) (now : Nat) (user : AuthUser) (p : String)
        (rememberMe : Bool) (s : Store),
      s.refreshTokens.any (fun r => r.id == p) = true →
      p ≠ g.refreshTokenId →
      (∃ tokens, (issueSession env g now user (some p) rememberMe s).1
        = .ok tokens)
      ∧ (issueSession env g now user (some p) rememberMe s).2.refreshTokens
        = s.refreshTokens.map (fun r =>
            if r.id == p then
              { r with revokedAt := some now
                       replacedByTokenId := some g.refreshTokenId }
            else r)
          ++ [issuedRefreshRecord env g now user rememberMe]) := by
  refine ⟨?_, ?_, ?_⟩
  · intro env g now user prev rememberMe s tokens s' h
    match prev, h with
    | none, h =>
        simp only [issueSession, saveRefreshToken] at h
        obtain ⟨h1, _⟩ := Prod.mk.injEq .. ▸ h
        cases h1
        rfl
    | some p, h =>
        simp only [issueSession, saveRefreshToken] at h
        split at h
        · exact absurd (congrArg Prod.fst h) (by simp)
        · obtain ⟨h1, _⟩ := Prod.mk.injEq .. ▸ h
          cases h1
          rfl
  · intro env g now user rememberMe s
    simp [issueSession, saveRefreshToken, issuedRefreshRecord]
  · intro env g now user p rememberMe s hAny hNe
    have hAnyApp : (s.refreshTokens
        ++ [issuedRefreshRecord env g now user rememberMe]).any
          (fun r => r.id == p) = true := by
      rw [List.any_append]
      simp [hAny]
    have hNewId : (g.refreshTokenId == p) = false := by
      simp only [beq_eq_false_iff_ne]
      exact fun h => absurd h.symm hNe
    constructor
    · simp only [issueSession, saveRefreshToken, revokeRefreshToken]
      rw [if_pos (by simpa [issuedRefreshRecord] using hAnyApp)]
      exact ⟨_, rfl⟩
    · simp only [issueSession, saveRefreshToken, revokeRefreshToken]
      rw [if_pos (by simpa [issuedRefreshRecord] using hAnyApp)]
      simp [List.map_append, issuedRefreshRecord, hNewId]
      exact fun h => absurd h.symm hNe

/-- C10 witness: a concrete rotation — the prior token `"t1"` is revoked at 77
and chained to the fresh `"rt-new"`, whose TTL is capped at 7 days. -/
theorem issueSession_ttl_and_rotation_chain_witness :
    ((issueSession defaultEnv sampleGen 77
        (stripPassword sampleUser) (some "t1") false revokedTokenStore).1
      = .ok { accessToken := { sub := "u1", email := "a@x.com"
                               emailVerified := true, expiresAt := 900077 }
              accessTokenExpiresAt := 900077
              refreshToken := "rt-new.rt-secret-new"
              refreshTokenExpiresAt := 604800077 })
    ∧ (issueSession defaultEnv sampleGen 77
        (stripPassword sampleUser) (some "t1") false revokedTokenStore).2.refreshTokens
      = revokedTokenStore.refreshTokens.map (fun r =>
          if r.id == "t1" then
            { r with revokedAt := some 77, replacedByTokenId := some "rt-new" }
          else r)
        ++ [issuedRefreshRecord defaultEnv sampleGen 77
              (stripPassword sampleUser) false] := by
  have h := issueSession_ttl_and_rotation_chain.2.2 defaultEnv sampleGen 77
    (stripPassword sampleUser) "t1" false revokedTokenStore
    (by decide) (by decide)
  exact ⟨by decide, h.2⟩

/-! ## C3 -/

/-- The store after the presented token is revoked with no replacement
(the side effect of the expired / hash-mismatch / suspended branches). -/
def selfRevokedStore (s : Store) (id : String) (now : Nat) : Store :=
  { s with refreshTokens := s.refreshTokens.map (fun r =>
      if r.id == id then
        { r with revokedAt := some now, replacedByTokenId := none }
      else r) }

lemma findRefreshTokenById_inv {s : Store} {i : String}
    {rec : RefreshTokenRecord} {u : UserRecord}
    (h : findRefreshTokenById s i = some (rec, u)) :
    s.refreshTokens.find? (fun r => r.id == i) = some rec
    ∧ rec.id = i
    ∧ findUserById s rec.userId = some u := by
  unfold findRefreshTokenById at h
  cases hf : s.refreshTokens.find? (fun r => r.id == i) with
  | none => rw [hf] at h; exact absurd h (by simp)
  | some record =>
      rw [hf] at h
      dsimp only at h
      cases hu : findUserById s record.userId with
      | none => rw [hu] at h; exact absurd h (by simp)
      | some user =>
          rw [hu] at h
          dsimp only at h
          simp only [Option.some.injEq, Prod.mk.injEq] at h
          obtain ⟨h1, h2⟩ := h
          subst h1; subst h2
          refine ⟨rfl, ?_, hu⟩
          have := List.find?_some hf
          simpa using this

lemma revokeRefreshToken_of_found {s : Store} {i : String}
    {rec : RefreshTokenRecord} {u : UserRecord} (now : Nat)
    (h : findRefreshTokenById s i = some (rec, u)) :
    revokeRefreshToken s rec.id now none = some (selfRevokedStore s rec.id now) := by
  obtain ⟨hf, hid, _⟩ := findRefreshTokenById_inv h
  have hAny : s.refreshTokens.any (fun r => r.id == rec.id) = true := by
    subst hid
    exact any_eq_true_of_find?_eq_some hf
  simp [revokeRefreshToken, hAny, selfRevokedStore]

/-- C3: `refreshSession` classifies every failing input in source order —
malformed and unknown tokens are InvalidRefreshToken with no side effect,
a revoked token is RefreshTokenRevoked with no side effect, an expired token
is revoked and RefreshTokenExpired, a secret that misses the stored hash
revokes the token and raises InvalidRefreshToken, a suspended owner revokes
the token and raises AccountSuspended. -/
theorem refreshSession_failure_classification :
    (∀ (env : Env) (g : Gen) (now : Nat) (token : String) (s : Store),
      parseCompositeToken token = none →
      refreshSession env g now token s
        = (.error (.authError .invalidRefreshToken), s))
    ∧ (∀ (env : Env) (g : Gen) (now : Nat) (token : String) (s : Store)
        (p : ParsedToken),
      parseCompositeToken token = some p →
      findRefreshTokenById s p.id = none →
      refreshSession env g now token s
        = (.error (.authError .invalidRefreshToken), s))
    ∧ (∀ (env : Env) (g : Gen) (now : Nat) (token : String) (s : Store)
        (p : ParsedToken) (rec : RefreshTokenRecord) (u : UserRecord) (t : Nat),
      parseCompositeToken token = some p →
      findRefreshTokenById s p.id = some (rec, u) →
      rec.revokedAt = some t →
      refreshSession env g now token s
        = (.error (.authError .refreshTokenRevoked), s))
    ∧ (∀ (env : Env) (g : Gen) (now : Nat) (token : String) (s : Store)
        (p : ParsedToken) (rec : RefreshTokenRecord) (u : UserRecord),
      parseCompositeToken token = some p →
      findRefreshTokenById s p.id = some (rec, u) →
      rec.revokedAt = none →
      rec.expiresAt ≤ now →
      refreshSession env g now token s
        = (.error (.authError .refreshTokenExpired),
           selfRevokedStore s rec.id now))
    ∧ (∀ (env : Env) (g : Gen) (now : Nat) (token : String) (s : Store)
        (p : ParsedToken) (rec : RefreshTokenRecord) (u : UserRecord)
        (v : String),
      parseCompositeToken token = some p →
      findRefreshTokenById s p.id = some (rec, u) →
      rec.revokedAt = none →
      now < rec.expiresAt →
      rec.tokenHash = .hashOf v →
      v ≠ p.secret →
      refreshSession env g now token s
        = (.error (.authError .invalidRefreshToken),
           selfRevokedStore s rec.id now))
    ∧ (∀ (env : Env) (g : Gen) (now : Nat) (token : String) (s : Store)
        (p : ParsedToken) (rec : RefreshTokenRecord) (u : UserRecord),
      parseCompositeToken token = some p →
      findRefreshTokenById s p.id = some (rec, u) →
      rec.revokedAt = none →
      now < rec.expiresAt →
      rec.tokenHash = .hashOf p.secret →
      u.status = .suspended →
      refreshSession env g now token s
        = (.error (.authError .accountSuspended),
           selfRevokedStore s rec.id now)) := by
  refine ⟨?_, ?_, ?_, ?_, ?_, ?_⟩
  · intro env g now token s hParse
    simp [refreshSession, hParse]
  · intro env g now token s p hParse hFind
    simp [refreshSession, hParse, hFind]
  · intro env g now token s p rec u t hParse hFind hRev
    simp [refreshSession, hParse, hFind, hRev]
  · intro env g now token s p rec u hParse hFind hRev hExp
    have hNotLt : ¬ now < rec.expiresAt := by omega
    simp [refreshSession, hParse, hFind, hRev, hExp,
      revokeRefreshToken_of_found now hFind]
  · intro env g now token s p rec u v hParse hFind hRev hLive hHash hNe
    have hNotExp : ¬ rec.expiresAt ≤ now := by omega
    have hBeq : (v == p.secret) = false := by simpa using hNe
    simp [refreshSession, hParse, hFind, hRev, hNotExp, hHash, argon2Verify,
      hBeq, revokeRefreshToken_of_found now hFind]
  · intro env g now token s p rec u hParse hFind hRev hLive hHash hSusp
    have hNotExp : ¬ rec.expiresAt ≤ now := by omega
    simp [refreshSession, hParse, hFind, hRev, hNotExp, hHash, argon2Verify,
      hSusp, revokeRefreshToken_of_found now hFind]

def expiredToken : RefreshTokenRecord :=
  { id := "t2", userId := "u1", tokenHash := .hashOf "sec2", issuedAt := 0
    expiresAt := 10, revokedAt := none, replacedByTokenId := none }

def liveToken : RefreshTokenRecord :=
  { id := "t3", userId := "u1", tokenHash := .hashOf "sec3", issuedAt := 0
    expiresAt := 1000000, revokedAt := none, replacedByTokenId := none }

def suspendedUser : UserRecord :=
  { id := "u3", email := "s@x.com", status := .suspended
    passwordHash := .hashOf "pw3", emailVerifiedAt := none, lastLoginAt := none }

def suspendedUserToken : RefreshTokenRecord :=
  { id := "t4", userId := "u3", tokenHash := .hashOf "sec4", issuedAt := 0
    expiresAt := 1000000, revokedAt := none, replacedByTokenId := none }

def c3Store : Store :=
  { consumedChallengeStore with
      users := [sampleUser, suspendedUser]
      refreshTokens := [revokedToken, expiredToken, liveToken, suspendedUserToken] }

/-- C3 witness: the six classifications at concrete inputs — malformed value,
unknown id, revoked token, expired token, wrong secret, suspended owner. -/
theorem refreshSession_failure_classification_witness :
    refreshSession defaultEnv sampleGen 50 "garbage" c3Store
      = (.error (.authError .invalidRefreshToken), c3Store)
    ∧ refreshSession defaultEnv sampleGen 50 "zz.aa" c3Store
      = (.error (.authError .invalidRefreshToken), c3Store)
    ∧ refreshSession defaultEnv sampleGen 50 "t1.sec1" c3Store
      = (.error (.authError .refreshTokenRevoked), c3Store)
    ∧ refreshSession defaultEnv sampleGen 50 "t2.sec2" c3Store
      = (.error (.authError .refreshTokenExpired), selfRevokedStore c3Store "t2" 50)
    ∧ refreshSession defaultEnv sampleGen 50 "t3.wrong" c3Store
      = (.error (.authError .invalidRefreshToken), selfRevokedStore c3Store "t3" 50)
    ∧ refreshSession defaultEnv sampleGen 50 "t4.sec4" c3Store
      = (.error (.authError .accountSuspended), selfRevokedStore c3Store "t4" 50) :=
  ⟨refreshSession_failure_classification.1 defaultEnv sampleGen 50 "garbage"
      c3Store (by decide),
   refreshSession_failure_classification.2.1 defaultEnv sampleGen 50 "zz.aa"
      c3Store { id := "zz", secret := "aa" } (by decide) (by decide),
   refreshSession_failure_classification.2.2.1 defaultEnv sampleGen 50 "t1.sec1"
      c3Store { id := "t1", secret := "sec1" } revokedToken sampleUser 100
      (by decide) (by decide) (by decide),
   refreshSession_failure_classification.2.2.2.1 defaultEnv sampleGen 50
      "t2.sec2" c3Store { id := "t2", secret := "sec2" } expiredToken sampleUser
      (by decide) (by decide) (by decide) (by decide),
   refreshSession_failure_classification.2.2.2.2.1 defaultEnv sampleGen 50
      "t3.wrong" c3Store { id := "t3", secret := "wrong" } liveToken sampleUser
      "sec3" (by decide) (by decide) (by decide) (by decide) (by decide)
      (by decide),
   refreshSession_failure_classification.2.2.2.2.2 defaultEnv sampleGen 50
      "t4.sec4" c3Store { id := "t4", secret := "sec4" } suspendedUserToken
      suspendedUser (by decide) (by decide) (by decide) (by decide) (by decide)
      (by decide)⟩

/-! ## C9 -/

lemma splitOnCharAux_ne_nil (sep : Char) (l : List Char) :
    splitOnCharAux sep l ≠ [] := by
  cases l with
  | nil => simp [splitOnCharAux]
  | cons c rest =>
      simp only [splitOnCharAux]
      cases splitOnCharAux sep rest with
      | nil => simp
      | cons g gs =>
          by_cases hc : (c == sep) = true <;> simp [hc]

lemma splitOnCharAux_no_sep (sep : Char) (l : List Char) (h : sep ∉ l) :
    splitOnCharAux sep l = [l] := by
  induction l with
  | nil => rfl
  | cons c rest ih =>
      have hc : (c == sep) = false := by
        simp only [beq_eq_false_iff_ne]
        exact fun hcs => h (hcs ▸ List.mem_cons_self c rest)
      have hrest := ih (fun hm => h (List.mem_cons_of_mem c hm))
      simp [splitOnCharAux, hrest, hc]

lemma splitOnCharAux_single_sep (sep : Char) (la lb : List Char)
    (ha : sep ∉ la) (hb : sep ∉ lb) :
    splitOnCharAux sep (la ++ sep :: lb) = [la, lb] := by
  induction la with
  | nil =>
      simp only [List.nil_append, splitOnCharAux, splitOnCharAux_no_sep sep lb hb]
      simp
  | cons c la' ih =>
      have hc : (c == sep) = false := by
        simp only [beq_eq_false_iff_ne]
        exact fun hcs => ha (hcs ▸ List.mem_cons_self c la')
      have hla' := ih (fun hm => ha (List.mem_cons_of_mem c hm))
      simp [splitOnCharAux, hla', hc]

/-- A two-segment composite value round-trips through `parseCompositeToken`
when neither segment is empty or contains the delimiter. -/
lemma parseCompositeToken_append (a b : String)
    (hae : a.isEmpty = false) (hbe : b.isEmpty = false)
    (ha : '.' ∉ a.data) (hb : '.' ∉ b.data) :
    parseCompositeToken (a ++ "." ++ b) = some { id := a, secret := b } := by
  have hdata : (a ++ "." ++ b).data = a.data ++ '.' :: b.data := by
    simp [String.data_append]
  simp only [parseCompositeToken, jsSplitDot, String.toList, hdata,
    splitOnCharAux_single_sep '.' a.data b.data ha hb, List.map]
  simp [hae, hbe]

/-- The store produced by a successful password reset: token consumed,
password hash replaced, every outstanding refresh token of the user revoked. -/
def passwordResetStore (s : Store) (tok : String) (userId : String)
    (newPassword : String) (now : Nat) : Store :=
  let s1 := (consumePasswordResetToken s tok now).2
  let s2 := match updatePasswordHash s1 userId (.hashOf newPassword) with
    | some s2 => s2
    | none => s1
  revokeRefreshTokensForUser s2 userId now

/-- C9: `resetPassword` with an unknown, consumed or expired token raises
InvalidOrExpiredToken and leaves the store untouched; with a valid token it
rewrites the password hash, revokes every not-yet-revoked refresh token of the
owner, and any previously valid refresh token of that user is classified
RefreshTokenRevoked by `refreshSession` afterwards. -/
theorem resetPassword_consumes_and_revokes :
    (∀ (now : Nat) (tok np : String) (s : Store),
      s.passwordResetTokens.find? (fun r => r.token == tok) = none →
      resetPassword now { token := tok, newPassword := np } s
        = (.error (.authError .resetTokenInvalid), s))
    ∧ (∀ (now : Nat) (tok np : String) (s : Store)
        (r : PasswordResetTokenRecord) (t : Nat),
      s.passwordResetTokens.find? (fun x => x.token == tok) = some r →
      r.consumedAt = some t →
      resetPassword now { token := tok, newPassword := np } s
        = (.error (.authError .resetTokenInvalid), s))
    ∧ (∀ (now : Nat) (tok np : String) (s : Store)
        (r : PasswordResetTokenRecord),
      s.passwordResetTokens.find? (fun x => x.token == tok) = some r →
      r.consumedAt = none →
      r.expiresAt < now →
      resetPassword now { token := tok, newPassword := np } s
        = (.error (.authError .resetTokenInvalid), s))
    ∧ (∀ (now : Nat) (tok np : String) (s : Store)
        (r : PasswordResetTokenRecord) (u : UserRecord),
      s.passwordResetTokens.find? (fun x => x.token == tok) = some r →
      r.consumedAt = none →
      ¬ r.expiresAt < now →
      findUserById s r.userId = some u →
      resetPassword now { token := tok, newPassword := np } s
        = (.ok (stripPassword u), passwordResetStore s tok u.id np now)
      ∧ findUserById (passwordResetStore s tok u.id np now) u.id
          = some { u with passwordHash := .hashOf np }
      ∧ (passwordResetStore s tok u.id np now).refreshTokens
          = s.refreshTokens.map (fun rt =>
              if rt.userId == u.id && rt.revokedAt.isNone then
                { rt with revokedAt := some now }
              else rt)
      ∧ (∀ (env2 : Env) (g2 : Gen) (now2 : Nat) (sec : String)
          (rt : RefreshTokenRecord),
          s.refreshTokens.find? (fun x => x.id == rt.id) = some rt →
          rt.userId = u.id →
          rt.revokedAt = none →
          rt.id.isEmpty = false →
          sec.isEmpty = false →
          '.' ∉ rt.id.data →
          '.' ∉ sec.data →
          (refreshSession env2 g2 now2 (rt.id ++ "." ++ sec)
            (passwordResetStore s tok u.id np now)).1
            = .error (.authError .refreshTokenRevoked))) := by
  refine ⟨?_, ?_, ?_, ?_⟩
  · intro now tok np s hFind
    simp [resetPassword, consumePasswordResetToken, hFind]
  · intro now tok np s r t hFind hCons
    simp [resetPassword, consumePasswordResetToken, hFind, hCons]
  · intro now tok np s r hFind hCons hExp
    simp [resetPassword, consumePasswordResetToken, hFind, hCons, hExp]
  · intro now tok np s r u hFind hCons hNotExp hUser
    have hUser' : s.users.find? (fun x => x.id == r.userId) = some u := hUser
    have huid := List.find?_some hUser'
    have hEq : u.id = r.userId := by simpa using huid
    have hAnyU : s.users.any (fun x => x.id == u.id) = true := by
      rw [show ((fun x : UserRecord => x.id == u.id))
            = fun x : UserRecord => x.id == r.userId from by rw [hEq]]
      exact any_eq_true_of_find?_eq_some hUser'
    have hconsume : consumePasswordResetToken s tok now
        = (some { r with consumedAt := some now },
           { s with passwordResetTokens := s.passwordResetTokens.map (fun x =>
             if x.token == tok then { x with consumedAt := some now } else x) }) := by
      simp [consumePasswordResetToken, hFind, hCons, hNotExp]
    have hUser1 : findUserById
        { s with passwordResetTokens := s.passwordResetTokens.map (fun x =>
            if x.token == tok then { x with consumedAt := some now } else x) }
        r.userId = some u := hUser
    have hupd : updatePasswordHash
        { s with passwordResetTokens := s.passwordResetTokens.map (fun x =>
            if x.token == tok then { x with consumedAt := some now } else x) }
        u.id (.hashOf np)
        = some { s with
            passwordResetTokens := s.passwordResetTokens.map (fun x =>
              if x.token == tok then { x with consumedAt := some now } else x)
            users := s.users.map (fun x =>
              if x.id == u.id then { x with passwordHash := .hashOf np } else x) } := by
      simp only [updatePasswordHash]
      rw [if_pos hAnyU]
    have hstore : passwordResetStore s tok u.id np now
        = revokeRefreshTokensForUser
            { s with
              passwordResetTokens := s.passwordResetTokens.map (fun x =>
                if x.token == tok then { x with consumedAt := some now } else x)
              users := s.users.map (fun x =>
                if x.id == u.id then { x with passwordHash := .hashOf np } else x) }
            u.id now := by
      simp only [passwordResetStore, hconsume, hupd]
    have hrun : resetPassword now { token := tok, newPassword := np } s
        = (.ok (stripPassword u), passwordResetStore s tok u.id np now) := by
      simp only [resetPassword, hconsume]
      rw [hUser1]
      simp only []
      rw [hupd, hstore]
    have hUsersPost : (passwordResetStore s tok u.id np now).users
        = s.users.map (fun x =>
            if x.id == u.id then { x with passwordHash := .hashOf np } else x) := by
      rw [hstore]
      rfl
    have hTokensPost : (passwordResetStore s tok u.id np now).refreshTokens
        = s.refreshTokens.map (fun rt =>
            if rt.userId == u.id && rt.revokedAt.isNone then
              { rt with revokedAt := some now }
            else rt) := by
      rw [hstore]
      rfl
    have hFindUserPost : findUserById (passwordResetStore s tok u.id np now) u.id
        = some { u with passwordHash := .hashOf np } := by
      show (passwordResetStore s tok u.id np now).users.find?
        (fun x => x.id == u.id) = _
      rw [hUsersPost]
      rw [find?_map_of_pred_invariant _ _ (fun x => by
        by_cases hx : (x.id == u.id) = true <;> simp [hx])]
      rw [show s.users.find? (fun x => x.id == u.id) = some u from by
        rw [show ((fun x : UserRecord => x.id == u.id))
              = fun x : UserRecord => x.id == r.userId from by rw [hEq]]
        exact hUser']
      simp
    refine ⟨hrun, hFindUserPost, hTokensPost, ?_⟩
    · intro env2 g2 now2 sec rt hrtFind hrtUser hrtLive hrtIdNe hsecNe hrtDot hsecDot
      have hParse := parseCompositeToken_append rt.id sec hrtIdNe hsecNe hrtDot hsecDot
      have hrtPred : ∀ x : RefreshTokenRecord,
          ((if x.userId == u.id && x.revokedAt.isNone then
              { x with revokedAt := some now } else x).id == rt.id)
            = (x.id == rt.id) := by
        intro x
        by_cases hx : (x.userId == u.id && x.revokedAt.isNone) = true <;> simp [hx]
      have hFindTokPost : (passwordResetStore s tok u.id np now).refreshTokens.find?
          (fun x => x.id == rt.id) = some { rt with revokedAt := some now } := by
        rw [hTokensPost, find?_map_of_pred_invariant _ _ hrtPred, hrtFind]
        simp [hrtUser, hrtLive]
      have hFindJoin : findRefreshTokenById (passwordResetStore s tok u.id np now)
          rt.id = some ({ rt with revokedAt := some now },
            { u with passwordHash := .hashOf np }) := by
        unfold findRefreshTokenById
        rw [hFindTokPost]
        dsimp only
        rw [show findUserById (passwordResetStore s tok u.id np now) rt.userId
            = some { u with passwordHash := .hashOf np } from by
          rw [hrtUser]; exact hFindUserPost]
      simp [refreshSession, hParse, hFindJoin]

def sampleResetToken : PasswordResetTokenRecord :=
  { id := "pr1", userId := "u1", token := "reset-1", expiresAt := 100
    consumedAt := none }

def c9Store : Store :=
  { c3Store with passwordResetTokens := [sampleResetToken] }

/-- C9 witness: a live reset token consumed at 50 rewrites the hash of `u1`,
revokes the outstanding tokens `t2`/`t3`/`t4` is untouched (other user), and
the previously valid token `t3` is RefreshTokenRevoked afterwards. -/
theorem resetPassword_consumes_and_revokes_witness :
    resetPassword 50 { token := "reset-1", newPassword := "NewPw1!" } c9Store
      = (.ok (stripPassword sampleUser),
         passwordResetStore c9Store "reset-1" "u1" "NewPw1!" 50)
    ∧ findUserById (passwordResetStore c9Store "reset-1" "u1" "NewPw1!" 50) "u1"
      = some { sampleUser with passwordHash := .hashOf "NewPw1!" }
    ∧ (refreshSession defaultEnv sampleGen 60 "t3.sec3"
        (passwordResetStore c9Store "reset-1" "u1" "NewPw1!" 50)).1
      = .error (.authError .refreshTokenRevoked) := by
  have h := resetPassword_consumes_and_revokes.2.2.2 50 "reset-1" "NewPw1!"
    c9Store sampleResetToken sampleUser (by decide) (by decide) (by decide)
    (by decide)
  exact ⟨h.1, h.2.1, h.2.2.2 defaultEnv sampleGen 60 "sec3" liveToken
    (by decide) (by decide) (by decide) (by decide) (by decide) (by decide)
    (by decide)⟩

/-! ## C7 -/

lemma any_id_of_mem {r : BackupCodeRecord} {l : List BackupCodeRecord}
    (h : r ∈ l) : l.any (fun x => x.id == r.id) = true :=
  List.any_eq_true.mpr ⟨r, h, by simp⟩

/-- The scan accepts exactly when some unused record hashes the submitted
code (well-formed stored hashes assumed so the scan cannot raise). -/
lemma consumeBackupCodeScan_ok_true_iff (codes : List BackupCodeRecord)
    (c : String) (now : Nat) (s : Store)
    (hwf : ∀ r ∈ codes, ∃ v, r.codeHash = .hashOf v)
    (hsub : ∀ r ∈ codes, s.backupCodes.any (fun x => x.id == r.id) = true) :
    ((consumeBackupCodeScan codes c now s).1 = .ok true
      ↔ ∃ r ∈ codes, r.usedAt = none ∧ r.codeHash = .hashOf c) := by
  induction codes with
  | nil => simp [consumeBackupCodeScan]
  | cons a rest ih =>
      have hwfRest : ∀ r ∈ rest, ∃ v, r.codeHash = .hashOf v :=
        fun r hr => hwf r (List.mem_cons_of_mem a hr)
      have hsubRest : ∀ r ∈ rest, s.backupCodes.any (fun x => x.id == r.id) = true :=
        fun r hr => hsub r (List.mem_cons_of_mem a hr)
      have ihr := ih hwfRest hsubRest
      cases ha : a.usedAt with
      | some t =>
          simp only [consumeBackupCodeScan, ha, Option.isSome_some, if_true]
          rw [ihr]
          constructor
          · rintro ⟨r, hr, hru, hrc⟩
            exact ⟨r, List.mem_cons_of_mem a hr, hru, hrc⟩
          · rintro ⟨r, hr, hru, hrc⟩
            rcases List.mem_cons.mp hr with rfl | hr'
            · exact absurd ha (by simp [hru])
            · exact ⟨r, hr', hru, hrc⟩
      | none =>
          obtain ⟨v, hv⟩ := hwf a (List.mem_cons_self a rest)
          by_cases hvc : v = c
          · subst hvc
            have hmark : markBackupCodeUsed s a.id now
                = some { s with backupCodes := s.backupCodes.map (fun x =>
                    if x.id == a.id then { x with usedAt := some now } else x) } := by
              simp [markBackupCodeUsed, hsub a (List.mem_cons_self a rest)]
            simp only [consumeBackupCodeScan, ha, Option.isSome_none,
              Bool.false_eq_true, if_false, hv, argon2Verify, beq_self_eq_true,
              hmark]
            constructor
            · intro _
              exact ⟨a, List.mem_cons_self a rest, ha, hv⟩
            · intro _
              trivial
          · have hbeq : (v == c) = false := by simpa using hvc
            simp only [consumeBackupCodeScan, ha, Option.isSome_none,
              Bool.false_eq_true, if_false, hv, argon2Verify, hbeq]
            rw [ihr]
            constructor
            · rintro ⟨r, hr, hru, hrc⟩
              exact ⟨r, List.mem_cons_of_mem a hr, hru, hrc⟩
            · rintro ⟨r, hr, hru, hrc⟩
              rcases List.mem_cons.mp hr with rfl | hr'
              · rw [hv] at hrc
                exact absurd (by injection hrc) hvc
              · exact ⟨r, hr', hru, hrc⟩

/-- When exactly one record of the scanned list hashes the submitted code and
it is unused, the scan marks precisely that record (by id) and succeeds. -/
lemma consumeBackupCodeScan_marks (codes : List BackupCodeRecord) (c : String)
    (now : Nat) (s : Store) (r : BackupCodeRecord)
    (hwf : ∀ x ∈ codes, ∃ v, x.codeHash = .hashOf v)
    (hsub : ∀ x ∈ codes, s.backupCodes.any (fun y => y.id == x.id) = true)
    (hr : r ∈ codes) (hru : r.usedAt = none) (hrc : r.codeHash = .hashOf c)
    (huniq : ∀ x ∈ codes, x.codeHash = .hashOf c → x = r) :
    consumeBackupCodeScan codes c now s
      = (.ok true, { s with backupCodes := s.backupCodes.map (fun x =>
          if x.id == r.id then { x with usedAt := some now } else x) }) := by
  induction codes with
  | nil => exact absurd hr (List.not_mem_nil r)
  | cons a rest ih =>
      have hwfRest : ∀ x ∈ rest, ∃ v, x.codeHash = .hashOf v :=
        fun x hx => hwf x (List.mem_cons_of_mem a hx)
      have hsubRest : ∀ x ∈ rest, s.backupCodes.any (fun y => y.id == x.id) = true :=
        fun x hx => hsub x (List.mem_cons_of_mem a hx)
      have huniqRest : ∀ x ∈ rest, x.codeHash = .hashOf c → x = r :=
        fun x hx => huniq x (List.mem_cons_of_mem a hx)
      cases ha : a.usedAt with
      | some t =>
          have har : ¬ a = r := fun h => by rw [h, hru] at ha; exact absurd ha (by simp)
          have hrRest : r ∈ rest := by
            rcases List.mem_cons.mp hr with rfl | hr'
            · exact absurd rfl har
            · exact hr'
          simp only [consumeBackupCodeScan, ha, Option.isSome_some, if_true]
          exact ih hwfRest hsubRest hrRest huniqRest
      | none =>
          obtain ⟨v, hv⟩ := hwf a (List.mem_cons_self a rest)
          by_cases hvc : v = c
          · subst hvc
            have har : a = r := huniq a (List.mem_cons_self a rest) hv
            subst har
            have hmark : markBackupCodeUsed s a.id now
                = some { s with backupCodes := s.backupCodes.map (fun x =>
                    if x.id == a.id then { x with usedAt := some now } else x) } := by
              simp [markBackupCodeUsed, hsub a (List.mem_cons_self a rest)]
            simp only [consumeBackupCodeScan, ha, Option.isSome_none,
              Bool.false_eq_true, if_false, hv, argon2Verify, beq_self_eq_true,
              hmark]
          · have hbeq : (v == c) = false := by simpa using hvc
            have har : ¬ a = r := fun h => by
              rw [h, hrc] at hv
              exact hvc (by injection hv.symm)
            have hrRest : r ∈ rest := by
              rcases List.mem_cons.mp hr with rfl | hr'
              · exact absurd rfl har
              · exact hr'
            simp only [consumeBackupCodeScan, ha, Option.isSome_none,
              Bool.false_eq_true, if_false, hv, argon2Verify, hbeq]
            exact ih hwfRest hsubRest hrRest huniqRest

lemma findUserById_set_challenges (s : Store) (l : List MfaChallengeRecord)
    (i : String) : findUserById { s with mfaChallenges := l } i = findUserById s i :=
  rfl

/-- The successful tail of a login challenge: it always yields an
authenticated result for the challenge's user, and creates a remembered
device exactly when the caller asked for one and the factor was not a backup
code. -/
lemma finishLoginChallenge_spec (env : Env) (g : Gen) (now : Nat)
    (ch : MfaChallengeRecord) (setting : MfaConfigurationRecord)
    (rememberDevice ub : Bool) (s : Store) (usr : UserRecord)
    (hUser : findUserById s ch.userId = some usr) :
    ∃ res s',
      finishLoginChallenge env g now ch setting rememberDevice ub s
        = (.ok res, s')
      ∧ res.user = stripPassword usr
      ∧ res.rememberDevice = (if rememberDevice && !ub then
          some { value := g.deviceToken
                 expiresAt := now + env.MFA_REMEMBER_DEVICE_DAYS * 24 * 60 * 60 * 1000 }
          else none)
      ∧ s'.rememberedDevices = (if rememberDevice && !ub then
          s.rememberedDevices
            ++ [{ id := g.deviceId, userMfaId := setting.id
                  tokenHash := .hashOf g.deviceToken
                  expiresAt := now + env.MFA_REMEMBER_DEVICE_DAYS * 24 * 60 * 60 * 1000
                  lastUsedAt := none }]
          else s.rememberedDevices) := by
  have husrMem : usr ∈ s.users := List.mem_of_find?_eq_some hUser
  have hAnyU : s.users.any (fun x => x.id == (stripPassword usr).id) = true :=
    List.any_eq_true.mpr ⟨usr, husrMem, by simp [stripPassword]⟩
  unfold finishLoginChallenge
  cases hc : s.mfaChallenges.find? (fun c => c.id == ch.id) with
  | none =>
      simp only [consumeMfaChallenge, hc]
      rw [show findUserById s ch.userId = some usr from hUser]
      simp only [issueSession, saveRefreshToken]
      cases hrd : rememberDevice && !ub with
      | true =>
          simp only [hrd, if_true, createRememberedDevice, updateLastLogin]
          rw [if_pos hAnyU]
          exact ⟨_, _, rfl, rfl, rfl, rfl⟩
      | false =>
          simp only [hrd, Bool.false_eq_true, if_false, updateLastLogin]
          rw [if_pos hAnyU]
          exact ⟨_, _, rfl, rfl, rfl, rfl⟩
  | some found =>
      simp only [consumeMfaChallenge, hc]
      rw [findUserById_set_challenges, hUser]
      simp only [issueSession, saveRefreshToken]
      cases hrd : rememberDevice && !ub with
      | true =>
          simp only [hrd, if_true, createRememberedDevice, updateLastLogin]
          rw [if_pos hAnyU]
          exact ⟨_, _, rfl, rfl, rfl, rfl⟩
      | false =>
          simp only [hrd, Bool.false_eq_true, if_false, updateLastLogin]
          rw [if_pos hAnyU]
          exact ⟨_, _, rfl, rfl, rfl, rfl⟩

lemma findUserById_set_backupCodes (s : Store) (l : List BackupCodeRecord)
    (i : String) : findUserById { s with backupCodes := l } i = findUserById s i :=
  rfl

/-- The store after the single matching backup code has been marked used. -/
def markedBackupStore (s : Store) (id : String) (now : Nat) : Store :=
  { s with backupCodes := s.backupCodes.map (fun x =>
      if x.id == id then { x with usedAt := some now } else x) }

lemma mem_marked_decomp {s : Store} {mid rid : String} {now : Nat}
    {x : BackupCodeRecord}
    (hx : x ∈ listMfaBackupCodes (markedBackupStore s rid now) mid) :
    ∃ y ∈ listMfaBackupCodes s mid,
      x = (if y.id == rid then { y with usedAt := some now } else y) := by
  obtain ⟨hxm, hxp⟩ := List.mem_filter.mp hx
  obtain ⟨y, hym, hyx⟩ := List.mem_map.mp hxm
  have hpres : x.userMfaId = y.userMfaId := by
    by_cases hy : (y.id == rid) = true <;> simp [hy] at hyx <;> rw [← hyx]
  refine ⟨y, List.mem_filter.mpr ⟨hym, ?_⟩, hyx.symm⟩
  rw [← hpres]
  exact hxp

/-- C7: a backup-code-shaped input is accepted iff some unused stored code of
the configuration hashes it; acceptance marks that code used, after which the
very same submission fails; in login-challenge verification a successful
backup-code factor never creates a remembered device even when requested,
while a successful TOTP factor with device memory requested does. -/
theorem backup_code_single_use_and_device_memory :
    (∀ (mid c : String) (now : Nat) (s : Store),
      (∀ r ∈ listMfaBackupCodes s mid, ∃ v, r.codeHash = .hashOf v) →
      ((consumeBackupCode mid c now s).1 = .ok true
        ↔ ∃ r ∈ listMfaBackupCodes s mid, r.usedAt = none
            ∧ r.codeHash = .hashOf c))
    ∧ (∀ (mid c : String) (now : Nat) (s : Store) (r : BackupCodeRecord),
      (∀ x ∈ listMfaBackupCodes s mid, ∃ v, x.codeHash = .hashOf v) →
      r ∈ listMfaBackupCodes s mid → r.usedAt = none → r.codeHash = .hashOf c →
      (∀ x ∈ listMfaBackupCodes s mid, x.codeHash = .hashOf c → x = r) →
      consumeBackupCode mid c now s = (.ok true, markedBackupStore s r.id now)
      ∧ (∀ x ∈ listMfaBackupCodes (markedBackupStore s r.id now) mid,
          x.codeHash = .hashOf c → x.usedAt = some now)
      ∧ (consumeBackupCode mid c now (markedBackupStore s r.id now)).1
          = .ok false)
    ∧ (∀ (env : Env) (g : Gen) (now : Nat) (s : Store)
        (ch : MfaChallengeRecord) (setting : MfaConfigurationRecord)
        (secret code : String) (usr : UserRecord) (r : BackupCodeRecord),
      findMfaChallengeById s ch.id = some ch → ch.ctype = .login →
      ¬ ch.expiresAt < now → ch.consumedAt = none →
      getActiveMfaConfiguration s ch.userId = some setting →
      decryptSecret setting.secretEncrypted env.MFA_ENCRYPTION_KEY = .ok secret →
      findUserById s ch.userId = some usr →
      sixDigitShape code = false → backupCodeShape (jsToUpper code) = true →
      (∀ x ∈ listMfaBackupCodes s setting.id, ∃ v, x.codeHash = .hashOf v) →
      r ∈ listMfaBackupCodes s setting.id → r.usedAt = none →
      r.codeHash = .hashOf (jsToUpper code) →
      (∀ x ∈ listMfaBackupCodes s setting.id,
        x.codeHash = .hashOf (jsToUpper code) → x = r) →
      ∃ res s', verifyMfaChallenge env g now ch.id code true s
          = (.ok (.loginCompleted res), s')
        ∧ res.rememberDevice = none
        ∧ s'.rememberedDevices = s.rememberedDevices)
    ∧ (∀ (env : Env) (g : Gen) (now : Nat) (s : Store)
        (ch : MfaChallengeRecord) (setting : MfaConfigurationRecord)
        (secret code : String) (usr : UserRecord),
      findMfaChallengeById s ch.id = some ch → ch.ctype = .login →
      ¬ ch.expiresAt < now → ch.consumedAt = none →
      getActiveMfaConfiguration s ch.userId = some setting →
      decryptSecret setting.secretEncrypted env.MFA_ENCRYPTION_KEY = .ok secret →
      findUserById s ch.userId = some usr →
      sixDigitShape code = true → isValidTotpToken secret code now = true →
      ∃ res s', verifyMfaChallenge env g now ch.id code true s
          = (.ok (.loginCompleted res), s')
        ∧ res.rememberDevice
            = some { value := g.deviceToken
                     expiresAt := now
                       + env.MFA_REMEMBER_DEVICE_DAYS * 24 * 60 * 60 * 1000 }
        ∧ s'.rememberedDevices
            = s.rememberedDevices
              ++ [{ id := g.deviceId, userMfaId := setting.id
                    tokenHash := .hashOf g.deviceToken
                    expiresAt := now
                      + env.MFA_REMEMBER_DEVICE_DAYS * 24 * 60 * 60 * 1000
                    lastUsedAt := none }]) := by
  have hsubOf : ∀ (s : Store) (mid : String),
      ∀ x ∈ listMfaBackupCodes s mid,
        s.backupCodes.any (fun y => y.id == x.id) = true := by
    intro s mid x hx
    exact any_id_of_mem (List.mem_filter.mp hx).1
  refine ⟨?_, ?_, ?_, ?_⟩
  · intro mid c now s hwf
    exact consumeBackupCodeScan_ok_true_iff (listMfaBackupCodes s mid) c now s
      hwf (hsubOf s mid)
  · intro mid c now s r hwf hr hru hrc huniq
    have hmarks := consumeBackupCodeScan_marks (listMfaBackupCodes s mid) c now
      s r hwf (hsubOf s mid) hr hru hrc huniq
    have hmarked : ∀ x ∈ listMfaBackupCodes (markedBackupStore s r.id now) mid,
        x.codeHash = .hashOf c → x.usedAt = some now := by
      intro x hx hxc
      obtain ⟨y, hym, hyx⟩ := mem_marked_decomp hx
      have hyc : y.codeHash = .hashOf c := by
        by_cases hy : (y.id == r.id) = true <;> simp [hy] at hyx <;>
          rw [hyx] at hxc <;> exact hxc
      have hyr : y = r := huniq y hym hyc
      subst hyr
      simp at hyx
      rw [hyx]
    refine ⟨hmarks, hmarked, ?_⟩
    have hnm : ∀ x ∈ listMfaBackupCodes (markedBackupStore s r.id now) mid,
        x.usedAt = none → ∃ v, x.codeHash = .hashOf v ∧ v ≠ c := by
      intro x hx hxu
      obtain ⟨y, hym, hyx⟩ := mem_marked_decomp hx
      obtain ⟨v, hv⟩ := hwf y hym
      have hxv : x.codeHash = .hashOf v := by
        by_cases hy : (y.id == r.id) = true <;> simp [hy] at hyx <;>
          rw [hyx] <;> exact hv
      refine ⟨v, hxv, ?_⟩
      intro hveq
      subst hveq
      exact absurd (hmarked x hx hxv) (by rw [hxu]; simp)
    have := consumeBackupCodeScan_no_match
      (listMfaBackupCodes (markedBackupStore s r.id now) mid) c now
      (markedBackupStore s r.id now) hnm
    show (consumeBackupCodeScan
      (listMfaBackupCodes (markedBackupStore s r.id now) mid) c now
      (markedBackupStore s r.id now)).1 = .ok false
    rw [this]
  · intro env g now s ch setting secret code usr r hFind hType hNotExp hNotCons
      hActive hSecret hUser h6 hbs hwf hr hru hrc huniq
    have hmarks := consumeBackupCodeScan_marks
      (listMfaBackupCodes s setting.id) (jsToUpper code) now s r hwf
      (hsubOf s setting.id) hr hru hrc huniq
    have hUserM : findUserById (markedBackupStore s r.id now) ch.userId
        = some usr := hUser
    obtain ⟨res, s', heq, hresu, hdev, hdevs⟩ := finishLoginChallenge_spec env g
      now ch setting true true (markedBackupStore s r.id now) usr hUserM
    have hComplete : completeLoginChallenge env g now ch.id code true s
        = (.ok res, s') := by
      simp only [completeLoginChallenge, hFind, hNotExp, if_false, hActive,
        hSecret, verifyLoginFactor, h6, Bool.false_eq_true, hbs, if_true,
        consumeBackupCode]
      rw [show consumeBackupCodeScan (listMfaBackupCodes s setting.id)
        (jsToUpper code) now s = (.ok true, markedBackupStore s r.id now)
        from hmarks]
      simpa using heq
    refine ⟨res, s', ?_, ?_, ?_⟩
    · simp [verifyMfaChallenge, hFind, hNotExp, hNotCons, hType, hComplete]
    · rw [hdev]; rfl
    · rw [hdevs]; rfl
  · intro env g now s ch setting secret code usr hFind hType hNotExp hNotCons
      hActive hSecret hUser h6 hTot
    obtain ⟨res, s', heq, hresu, hdev, hdevs⟩ := finishLoginChallenge_spec env g
      now ch setting true false s usr hUser
    have hComplete : completeLoginChallenge env g now ch.id code true s
        = (.ok res, s') := by
      simp only [completeLoginChallenge, hFind, hNotExp, if_false, hActive,
        hSecret, verifyLoginFactor, h6, if_true, hTot]
      simpa using heq
    refine ⟨res, s', ?_, ?_, ?_⟩
    · simp [verifyMfaChallenge, hFind, hNotExp, hNotCons, hType, hComplete]
    · rw [hdev]; rfl
    · rw [hdevs]; rfl

set_option maxRecDepth 400000 in
/-- RFC 6238 test vector: at `t = 59s` the sample secret yields `287082`
(counter 1). -/
lemma totp_sample_valid : isValidTotpToken sampleSecret "287082" 59000 = true := by
  decide

/-- Projection of a login-challenge outcome: the remembered-device value
returned and the stored device list. -/
def loginChallengeOutcome
    (r : Except Failure VerifyMfaChallengeResult × Store) :
    Option (Option RememberDeviceIssued × List RememberedDeviceRecord) :=
  match r with
  | (.ok (.loginCompleted res), s') => some (res.rememberDevice, s'.rememberedDevices)
  | _ => none

/-- C7 witness: the lone stored code `AAAA-AAAA` consumes once and only once;
submitted in lowercase against the live login challenge it authenticates but
suppresses device memory; a valid TOTP factor with device memory requested
creates the remembered device. -/
theorem backup_code_single_use_and_device_memory_witness :
    (consumeBackupCode "m1" "AAAA-AAAA" 100 liveChallengeStore).1 = .ok true
    ∧ (consumeBackupCode "m1" "AAAA-AAAA" 100
        (markedBackupStore liveChallengeStore "b1" 100)).1 = .ok false
    ∧ loginChallengeOutcome (verifyMfaChallenge defaultEnv sampleGen 100 "c1"
        "aaaa-aaaa" true liveChallengeStore) = some (none, [])
    ∧ loginChallengeOutcome (verifyMfaChallenge defaultEnv sampleGen 59000 "c1"
        "287082" true liveChallengeStore)
      = some (some { value := "dev-token-new", expiresAt := 2592059000
                     },
              [{ id := "dev-new", userMfaId := "m1"
                 tokenHash := .hashOf "dev-token-new"
                 expiresAt := 2592059000, lastUsedAt := none }]) := by
  have hlist : listMfaBackupCodes liveChallengeStore "m1" = [sampleBackupCode] := by
    decide
  have hwf : ∀ x ∈ listMfaBackupCodes liveChallengeStore "m1",
      ∃ v, x.codeHash = .hashOf v := by
    intro x hx
    rw [hlist, List.mem_singleton] at hx
    subst hx
    exact ⟨"AAAA-AAAA", rfl⟩
  have hr : sampleBackupCode ∈ listMfaBackupCodes liveChallengeStore "m1" := by
    rw [hlist]
    exact List.mem_singleton_self _
  have huniq : ∀ x ∈ listMfaBackupCodes liveChallengeStore "m1",
      x.codeHash = .hashOf "AAAA-AAAA" → x = sampleBackupCode := by
    intro x hx _
    rw [hlist, List.mem_singleton] at hx
    exact hx
  have hii := backup_code_single_use_and_device_memory.2.1 "m1" "AAAA-AAAA" 100
    liveChallengeStore sampleBackupCode hwf hr (by decide) (by decide) huniq
  refine ⟨by rw [hii.1], hii.2.2, ?_, ?_⟩
  · obtain ⟨res, s', heq, hdev, hdevs⟩ :=
      backup_code_single_use_and_device_memory.2.2.1 defaultEnv sampleGen 100
        liveChallengeStore liveChallenge sampleMfa sampleSecret "aaaa-aaaa"
        sampleUser sampleBackupCode (by decide) (by decide) (by decide)
        (by decide) (by decide) (by decide) (by decide) (by decide) (by decide)
        hwf hr (by decide) (by decide) huniq
    rw [show ("c1" : String) = liveChallenge.id from rfl, heq]
    simp [loginChallengeOutcome, hdev, hdevs, liveChallengeStore,
      consumedChallengeStore]
  · obtain ⟨res, s', heq, hdev, hdevs⟩ :=
      backup_code_single_use_and_device_memory.2.2.2 defaultEnv sampleGen 59000
        liveChallengeStore liveChallenge sampleMfa sampleSecret "287082"
        sampleUser (by decide) (by decide) (by decide) (by decide) (by decide)
        (by decide) (by decide) (by decide) totp_sample_valid
    rw [show ("c1" : String) = liveChallenge.id from rfl, heq]
    simp [loginChallengeOutcome, hdev, hdevs, liveChallengeStore,
      consumedChallengeStore, defaultEnv, sampleGen, sampleMfa]

/-! ## C6 -/

lemma base32_toUpper_alnum (i : Nat) :
    isUpperAlnum ((BASE32_ALPHABET[i]?.getD 'A').toUpper) = true := by
  by_cases h : i < 32
  · interval_cases i <;> decide
  · rw [show BASE32_ALPHABET[i]? = none from by
      rw [List.getElem?_eq_none]
      show 32 ≤ i
      omega]
    decide

/-- A five-byte seed formats (and uppercases) to an `XXXX-XXXX` code. -/
lemma formatBackupCode_shape (seed : List Nat) (h : seed.length = 5) :
    backupCodeShape (jsToUpper (formatBackupCode seed)) = true := by
  match seed, h with
  | [b0, b1, b2, b3, b4], _ =>
      simp only [formatBackupCode, base32Encode, base32EncodeStep, List.foldl]
      norm_num
      simp only [jsToUpper, backupCodeShape, String.toList, String.data_append,
        String.mk, List.map, List.take, List.drop, List.append_eq, List.cons_append,
        List.nil_append, List.all_cons, List.all_nil]
      simp [base32_toUpper_alnum]

lemma getMfaConfiguration_upsert (s : Store) (input : UpsertMfaSettingInput)
    (newId : String) :
    getMfaConfiguration (upsertMfaSetting s input newId).2 input.userId
      = some (upsertMfaSetting s input newId).1 := by
  unfold upsertMfaSetting
  cases hm : getMfaConfiguration s input.userId with
  | some existing =>
      dsimp only
      have hpred : ∀ m : MfaConfigurationRecord,
          (((if m.userId == input.userId then
              { existing with secretEncrypted := input.secretEncrypted
                              deviceName := input.deviceName
                              activatedAt := input.activatedAt }
            else m) : MfaConfigurationRecord).userId == input.userId)
            = (m.userId == input.userId) := by
        intro m
        by_cases hx : (m.userId == input.userId) = true
        · have hex := List.find?_some hm
          simp only [hx, if_true]
          simpa using hex
        · simp [hx]
      show List.find? _ (s.mfaSettings.map _) = _
      rw [find?_map_of_pred_invariant _ _ hpred]
      rw [show s.mfaSettings.find? (fun m => m.userId == input.userId)
        = some existing from hm]
      have hex := List.find?_some hm
      simp only [Option.map_some']
      rw [if_pos hex]
  | none =>
      dsimp only
      show List.find? _ (s.mfaSettings ++ _) = _
      rw [List.find?_append]
      rw [show s.mfaSettings.find? (fun m => m.userId == input.userId)
        = none from hm]
      simp

lemma listMfaBackupCodes_replace (s : Store) (mid : String)
    (codes : List (String × Argon2Hash)) :
    listMfaBackupCodes (replaceMfaBackupCodes s mid codes) mid
      = codes.map (backupRecordOf mid) := by
  unfold listMfaBackupCodes replaceMfaBackupCodes
  rw [List.filter_append]
  have h1 : (s.backupCodes.filter (fun c => !(c.userMfaId == mid))).filter
      (fun c => c.userMfaId == mid) = [] := by
    rw [List.filter_eq_nil_iff]
    intro a ha
    have := (List.mem_filter.mp ha).2
    simp at this
    simp [this]
  have h2 : (codes.map (backupRecordOf mid)).filter
      (fun c => c.userMfaId == mid) = codes.map (backupRecordOf mid) := by
    rw [List.filter_eq_self]
    intro a ha
    obtain ⟨c, _, hc⟩ := List.mem_map.mp ha
    rw [← hc]
    simp [backupRecordOf]
  rw [h1, h2, List.nil_append]

lemma upsertMfaSetting_fields (s : Store) (input : UpsertMfaSettingInput)
    (newId : String) :
    (upsertMfaSetting s input newId).1.activatedAt = input.activatedAt
    ∧ (upsertMfaSetting s input newId).1.secretEncrypted = input.secretEncrypted := by
  unfold upsertMfaSetting
  cases getMfaConfiguration s input.userId <;> simp

lemma upsertMfaSetting_preserves (s : Store) (input : UpsertMfaSettingInput)
    (newId : String) :
    (upsertMfaSetting s input newId).2.mfaChallenges = s.mfaChallenges
    ∧ (upsertMfaSetting s input newId).2.backupCodes = s.backupCodes := by
  unfold upsertMfaSetting
  cases getMfaConfiguration s input.userId <;> simp

lemma consumeMfaChallenge_preserves (s : Store) (i : String) (t : Nat) :
    (consumeMfaChallenge s i t).2.mfaSettings = s.mfaSettings
    ∧ (consumeMfaChallenge s i t).2.backupCodes = s.backupCodes := by
  unfold consumeMfaChallenge
  cases s.mfaChallenges.find? (fun c => c.id == i) <;> simp

lemma findMfaChallengeById_congr {s t : Store} (i : String)
    (h : s.mfaChallenges = t.mfaChallenges) :
    findMfaChallengeById s i = findMfaChallengeById t i := by
  unfold findMfaChallengeById
  rw [h]

lemma getMfaConfiguration_congr {s t : Store} (i : String)
    (h : s.mfaSettings = t.mfaSettings) :
    getMfaConfiguration s i = getMfaConfiguration t i := by
  unfold getMfaConfiguration
  rw [h]

lemma listMfaBackupCodes_congr {s t : Store} (i : String)
    (h : s.backupCodes = t.backupCodes) :
    listMfaBackupCodes s i = listMfaBackupCodes t i := by
  unfold listMfaBackupCodes
  rw [h]

/-- Consuming an existing challenge stamps `consumedAt` on the stored row. -/
lemma consumeMfaChallenge_find (s : Store) (ch : MfaChallengeRecord) (t : Nat)
    (hFind : findMfaChallengeById s ch.id = some ch) :
    findMfaChallengeById (consumeMfaChallenge s ch.id t).2 ch.id
      = some { ch with consumedAt := some t } := by
  have hFind' : s.mfaChallenges.find? (fun c => c.id == ch.id) = some ch := hFind
  unfold consumeMfaChallenge
  rw [hFind']
  show List.find? _ (s.mfaChallenges.map _) = _
  rw [find?_map_of_pred_invariant _ _ (fun x => by
    by_cases hx : (x.id == ch.id) = true <;> simp [hx])]
  rw [hFind']
  simp

/-- The plaintext codes a successful setup challenge returns. -/
def setupCodes (g : Gen) : List String :=
  (generateBackupCodes g.backupSeeds BACKUP_CODE_COUNT).map jsToUpper

/-- C6: a setup challenge whose code passes TOTP verification against the
decrypted pending secret activates the MfaConfiguration at `now`, replaces the
whole backup-code set with the 8 freshly generated `XXXX-XXXX` codes (stored
as hashes keyed by the oracle ids), marks the challenge consumed, and returns
exactly those 8 plaintext codes. -/
theorem setup_challenge_success_effects :
    ∀ (env : Env) (g : Gen) (now : Nat) (s : Store) (ch : MfaChallengeRecord)
      (secret code : String) (rd : Bool),
    findMfaChallengeById s ch.id = some ch →
    ch.ctype = .setup →
    ¬ ch.expiresAt < now →
    ch.consumedAt = none →
    ch.secretEncrypted = some (.payload secret env.MFA_ENCRYPTION_KEY) →
    isValidTotpToken secret code now = true →
    g.backupSeeds.length = 8 →
    (∀ seed ∈ g.backupSeeds, seed.length = 5) →
    (verifyMfaChallenge env g now ch.id code rd s).1
        = .ok (.setupCompleted { backupCodes := setupCodes g, activatedAt := now })
    ∧ (setupCodes g).length = 8
    ∧ (∀ c ∈ setupCodes g, backupCodeShape c = true)
    ∧ findMfaChallengeById (verifyMfaChallenge env g now ch.id code rd s).2 ch.id
        = some { ch with consumedAt := some now }
    ∧ ∃ m, getMfaConfiguration (verifyMfaChallenge env g now ch.id code rd s).2
          ch.userId = some m
        ∧ m.activatedAt = some now
        ∧ m.secretEncrypted = .payload secret env.MFA_ENCRYPTION_KEY
        ∧ listMfaBackupCodes (verifyMfaChallenge env g now ch.id code rd s).2 m.id
            = ((setupCodes g).zip (g.backupCodeIds.take BACKUP_CODE_COUNT)).map
                (fun vc => backupRecordOf m.id (vc.2, .hashOf vc.1)) := by
  intro env g now s ch secret code rd hFind hType hNotExp hNotCons hEnc hTot
    hSeedLen hSeedEach
  have hdec : decryptSecret (.payload secret env.MFA_ENCRYPTION_KEY)
      env.MFA_ENCRYPTION_KEY = .ok secret := by
    simp [decryptSecret]
  have hrun : verifyMfaChallenge env g now ch.id code rd s
      = (.ok (.setupCompleted { backupCodes := setupCodes g, activatedAt := now }),
         (consumeMfaChallenge
           (replaceMfaBackupCodes
             (upsertMfaSetting s
               { userId := ch.userId
                 secretEncrypted := .payload secret env.MFA_ENCRYPTION_KEY
                 deviceName := ch.deviceName, activatedAt := some now }
               g.newMfaSettingId).2
             (upsertMfaSetting s
               { userId := ch.userId
                 secretEncrypted := .payload secret env.MFA_ENCRYPTION_KEY
                 deviceName := ch.deviceName, activatedAt := some now }
               g.newMfaSettingId).1.id
             (((setupCodes g).zip (g.backupCodeIds.take BACKUP_CODE_COUNT)).map
               (fun vc => (vc.2, Argon2Hash.hashOf vc.1))))
           ch.id now).2) := by
    simp only [verifyMfaChallenge, hFind, hNotExp, if_false, hNotCons,
      Option.isSome_none, Bool.false_eq_true, hType]
    simp only [completeSetupChallenge, hEnc, hdec, hTot, Bool.not_true,
      Bool.false_eq_true, if_false, setupCodes]
  set input : UpsertMfaSettingInput :=
    { userId := ch.userId
      secretEncrypted := .payload secret env.MFA_ENCRYPTION_KEY
      deviceName := ch.deviceName, activatedAt := some now } with hinput
  have hlen : (setupCodes g).length = 8 := by
    simp [setupCodes, generateBackupCodes, List.length_take, hSeedLen,
      BACKUP_CODE_COUNT]
  have hshape : ∀ c ∈ setupCodes g, backupCodeShape c = true := by
    intro c hc
    obtain ⟨raw, hraw, hcu⟩ := List.mem_map.mp hc
    obtain ⟨seed, hseed, hfmt⟩ := List.mem_map.mp hraw
    have hseedMem : seed ∈ g.backupSeeds := List.take_subset _ _ hseed
    rw [← hcu, ← hfmt]
    exact formatBackupCode_shape seed (hSeedEach seed hseedMem)
  refine ⟨by rw [hrun], hlen, hshape, ?_, ?_⟩
  · rw [hrun]
    have hpres1 := (upsertMfaSetting_preserves s input g.newMfaSettingId).1
    have hch2 : (replaceMfaBackupCodes (upsertMfaSetting s input
        g.newMfaSettingId).2 (upsertMfaSetting s input g.newMfaSettingId).1.id
        (((setupCodes g).zip (g.backupCodeIds.take BACKUP_CODE_COUNT)).map
          (fun vc => (vc.2, Argon2Hash.hashOf vc.1)))).mfaChallenges
        = s.mfaChallenges := hpres1
    have hFind2 := (findMfaChallengeById_congr (t := s) ch.id hch2).trans hFind
    exact consumeMfaChallenge_find _ ch now hFind2
  · refine ⟨(upsertMfaSetting s input g.newMfaSettingId).1, ?_, ?_, ?_, ?_⟩
    · rw [hrun]
      have hset2 := (consumeMfaChallenge_preserves
        (replaceMfaBackupCodes (upsertMfaSetting s input g.newMfaSettingId).2
          (upsertMfaSetting s input g.newMfaSettingId).1.id
          (((setupCodes g).zip (g.backupCodeIds.take BACKUP_CODE_COUNT)).map
            (fun vc => (vc.2, Argon2Hash.hashOf vc.1)))) ch.id now).1
      rw [getMfaConfiguration_congr (t := (upsertMfaSetting s input
        g.newMfaSettingId).2) ch.userId hset2]
      exact getMfaConfiguration_upsert s input g.newMfaSettingId
    · exact (upsertMfaSetting_fields s input g.newMfaSettingId).1
    · exact (upsertMfaSetting_fields s input g.newMfaSettingId).2
    · rw [hrun]
      have hbc2 := (consumeMfaChallenge_preserves
        (replaceMfaBackupCodes (upsertMfaSetting s input g.newMfaSettingId).2
          (upsertMfaSetting s input g.newMfaSettingId).1.id
          (((setupCodes g).zip (g.backupCodeIds.take BACKUP_CODE_COUNT)).map
            (fun vc => (vc.2, Argon2Hash.hashOf vc.1)))) ch.id now).2
      rw [listMfaBackupCodes_congr (t := replaceMfaBackupCodes
          (upsertMfaSetting s input g.newMfaSettingId).2
          (upsertMfaSetting s input g.newMfaSettingId).1.id
          (((setupCodes g).zip (g.backupCodeIds.take BACKUP_CODE_COUNT)).map
            (fun vc => (vc.2, Argon2Hash.hashOf vc.1))))
          (upsertMfaSetting s input g.newMfaSettingId).1.id hbc2]
      rw [listMfaBackupCodes_replace]
      rw [List.map_map]
      rfl

/-- A pending TOTP enrollment: setup challenge holding the encrypted secret. -/
def setupChallenge : MfaChallengeRecord :=
  { id := "c2", userId := "u1", userMfaId := none, ctype := .setup
    secretEncrypted := some sampleEnc, deviceName := some "Personal phone"
    context := none, expiresAt := 1000000, consumedAt := none, attempts := 0 }

def setupStore : Store :=
  { users := [sampleUser], refreshTokens := [], mfaSettings := []
    mfaChallenges := [setupChallenge], backupCodes := []
    rememberedDevices := [], passwordResetTokens := [] }

def setupGen : Gen :=
  { sampleGen with
      backupSeeds := [[1, 2, 3, 4, 5], [6, 7, 8, 9, 10], [11, 12, 13, 14, 15],
        [16, 17, 18, 19, 20], [21, 22, 23, 24, 25], [26, 27, 28, 29, 30],
        [31, 32, 33, 34, 251], [0, 0, 0, 0, 0]]
      backupCodeIds := ["bc1", "bc2", "bc3", "bc4", "bc5", "bc6", "bc7", "bc8"] }

/-- C6 witness: completing the concrete setup challenge with the valid TOTP
code `287082` at `t = 59s` returns exactly the 8 generated plaintext codes
with `activatedAt = 59000`. -/
theorem setup_challenge_success_effects_witness :
    (verifyMfaChallenge defaultEnv setupGen 59000 "c2" "287082" false
        setupStore).1
      = .ok (.setupCompleted
          { backupCodes := ["AEBA-GBAF", "AYDQ-QCIK", "BMGA-2DQP", "CAIR-EEYU",
              "CULB-OGAZ", "DINR-YHI6", "D4QC-CIX3", "AAAA-AAAA"]
            activatedAt := 59000 }) := by
  have h := setup_challenge_success_effects defaultEnv setupGen 59000 setupStore
    setupChallenge sampleSecret "287082" false (by decide) (by decide)
    (by decide) (by decide) (by decide) totp_sample_valid (by decide) (by decide)
  rw [show ("c2" : String) = setupChallenge.id from rfl, h.1]
  decide

/-! ## C8 -/

lemma digitChar_isDigit (n : Nat) (h : n < 10) : (digitChar n).isDigit = true := by
  interval_cases n <;> decide

lemma decDigitsAux_digits (fuel : Nat) :
    ∀ (n : Nat), ∀ ch ∈ decDigitsAux fuel n, ch.isDigit = true := by
  induction fuel with
  | zero => intro n ch hch; simp [decDigitsAux] at hch
  | succ fuel ih =>
      intro n ch hch
      by_cases hn : n < 10
      · simp only [decDigitsAux, hn, if_true, List.mem_singleton] at hch
        subst hch
        exact digitChar_isDigit n hn
      · simp only [decDigitsAux, hn, if_false, List.mem_append,
          List.mem_singleton] at hch
        rcases hch with hch | hch
        · exact ih (n / 10) ch hch
        · subst hch
          exact digitChar_isDigit (n % 10) (Nat.mod_lt n (by norm_num))

lemma decDigitsAux_len_of_lt (fuel : Nat) :
    ∀ (k n : Nat), 1 ≤ k → n < 10 ^ k → (decDigitsAux fuel n).length ≤ k := by
  induction fuel with
  | zero => intro k n hk _; simp [decDigitsAux]
  | succ fuel ih =>
      intro k n hk hn
      by_cases h10 : n < 10
      · simp [decDigitsAux, h10]
        omega
      · match k with
        | 0 => omega
        | k' + 1 =>
            have hk' : 1 ≤ k' := by
              by_contra hc
              have : k' = 0 := by omega
              subst this
              simp at hn
              omega
            have hdiv : n / 10 < 10 ^ k' := by
              rw [Nat.div_lt_iff_lt_mul (by norm_num : 0 < 10)]
              calc n < 10 ^ (k' + 1) := hn
                _ = 10 ^ k' * 10 := by rw [pow_succ]
            have := ih k' (n / 10) hk' hdiv
            simp [decDigitsAux, h10]
            omega

/-- Every value below `10 ^ 6` formats as exactly six decimal digits. -/
lemma sixDigitShape_padded (n : Nat) (h : n < 10 ^ 6) :
    sixDigitShape (padStartZero 6 (decRepr n)) = true := by
  have hlen := decDigitsAux_len_of_lt 10 6 n (by norm_num) h
  have hdig := decDigitsAux_digits 10 n
  show ((List.replicate (6 - (decRepr n).length) '0' ++ (decRepr n).toList).length
      == 6
    && (List.replicate (6 - (decRepr n).length) '0'
        ++ (decRepr n).toList).all Char.isDigit) = true
  have hlen' : (decRepr n).length = (decDigitsAux 10 n).length := rfl
  have htl : (decRepr n).toList = decDigitsAux 10 n := rfl
  rw [hlen', htl]
  have h1 : (List.replicate (6 - (decDigitsAux 10 n).length) '0'
      ++ decDigitsAux 10 n).length = 6 := by
    rw [List.length_append, List.length_replicate]
    omega
  rw [h1]
  simp only [beq_self_eq_true, Bool.true_and, List.all_append, Bool.and_eq_true,
    List.all_eq_true]
  constructor
  · intro ch hch
    rw [List.eq_of_mem_replicate hch]
    decide
  · exact hdig

lemma sixDigitShape_generateOtp (b : List Nat) (c : Nat) :
    sixDigitShape (generateOtp b c 6) = true := by
  unfold generateOtp
  exact sixDigitShape_padded _ (Nat.mod_lt _ (by norm_num))

/-- The acceptance set of `isValidTotpToken`: six-digit tokens equal to the
code of a counter in the ±1 window. -/
lemma isValidTotpToken_iff (secret token : String) (t : Nat) :
    isValidTotpToken secret token t = true
      ↔ (sixDigitShape token = true
          ∧ ∃ c ∈ windowCounters (t / totpStepMillis),
              generateOtp (base32Decode secret) c 6 = token) := by
  unfold isValidTotpToken
  by_cases hs : sixDigitShape token = true
  · simp [hs, List.any_eq_true]
  · simp only [Bool.not_eq_true] at hs
    simp [hs]

/-- C8: TOTP generation depends only on the counter (hence is deterministic
for a fixed secret and timestamp); verification accepts exactly the six-digit
codes equal to the code of some counter within ±1 of
`floor(timestamp / 30000)` and rejects inputs that are not six digits; and a
code generated 2 or more steps away does not verify whenever it differs from
the three window codes (generated codes are always six digits, so membership
in the window is the only remaining gate). -/
theorem totp_determinism_window_acceptance :
    (∀ (secret : String) (t t' : Nat),
      t / totpStepMillis = t' / totpStepMillis →
      generateTotp secret t = generateTotp secret t')
    ∧ (∀ (secret token : String) (t : Nat),
      isValidTotpToken secret token t = true
        ↔ (sixDigitShape token = true
            ∧ ∃ c ∈ windowCounters (t / totpStepMillis),
                generateOtp (base32Decode secret) c 6 = token))
    ∧ (∀ (secret token : String) (t : Nat),
      sixDigitShape token = false → isValidTotpToken secret token t = false)
    ∧ (∀ (secret : String) (t c : Nat), c = t / totpStepMillis → 1 ≤ c →
      isValidTotpToken secret (generateOtp (base32Decode secret) (c - 1) 6) t
        = true
      ∧ isValidTotpToken secret (generateOtp (base32Decode secret) c 6) t = true
      ∧ isValidTotpToken secret (generateOtp (base32Decode secret) (c + 1) 6) t
        = true)
    ∧ (∀ (secret : String) (t c d : Nat), c = t / totpStepMillis → 2 ≤ d →
      (∀ w ∈ windowCounters c,
        generateOtp (base32Decode secret) (c + d) 6
          ≠ generateOtp (base32Decode secret) w 6) →
      isValidTotpToken secret (generateOtp (base32Decode secret) (c + d) 6) t
        = false)
    ∧ (∀ (secret : String) (t c d : Nat), c = t / totpStepMillis → 2 ≤ d →
      d ≤ c →
      (∀ w ∈ windowCounters c,
        generateOtp (base32Decode secret) (c - d) 6
          ≠ generateOtp (base32Decode secret) w 6) →
      isValidTotpToken secret (generateOtp (base32Decode secret) (c - d) 6) t
        = false) := by
  refine ⟨?_, isValidTotpToken_iff, ?_, ?_, ?_, ?_⟩
  · intro secret t t' h
    unfold generateTotp
    rw [h]
  · intro secret token t h
    unfold isValidTotpToken
    rw [h]
    rfl
  · intro secret t c hc h1
    subst hc
    refine ⟨?_, ?_, ?_⟩
    · refine (isValidTotpToken_iff secret _ t).mpr
        ⟨sixDigitShape_generateOtp _ _, t / totpStepMillis - 1, ?_, rfl⟩
      simp [windowCounters]
    · refine (isValidTotpToken_iff secret _ t).mpr
        ⟨sixDigitShape_generateOtp _ _, t / totpStepMillis, ?_, rfl⟩
      simp [windowCounters]
    · refine (isValidTotpToken_iff secret _ t).mpr
        ⟨sixDigitShape_generateOtp _ _, t / totpStepMillis + 1, ?_, rfl⟩
      simp [windowCounters]
  · intro secret t c d hc hd hne
    subst hc
    cases hv : isValidTotpToken secret
      (generateOtp (base32Decode secret) (t / totpStepMillis + d) 6) t with
    | false => rfl
    | true =>
        obtain ⟨_, w, hw, hweq⟩ := (isValidTotpToken_iff secret _ t).mp hv
        exact absurd hweq.symm (hne w hw)
  · intro secret t c d hc hd hdc hne
    subst hc
    cases hv : isValidTotpToken secret
      (generateOtp (base32Decode secret) (t / totpStepMillis - d) 6) t with
    | false => rfl
    | true =>
        obtain ⟨_, w, hw, hweq⟩ := (isValidTotpToken_iff secret _ t).mp hv
        exact absurd hweq.symm (hne w hw)

set_option maxRecDepth 400000 in
/-- RFC 4226 test vector, counter 0. -/
lemma otp_sample_counter0 :
    generateOtp (base32Decode sampleSecret) 0 6 = "755224" := by decide

set_option maxRecDepth 400000 in
/-- RFC 4226 test vector, counter 1. -/
lemma otp_sample_counter1 :
    generateOtp (base32Decode sampleSecret) 1 6 = "287082" := by decide

set_option maxRecDepth 400000 in
/-- RFC 4226 test vector, counter 2. -/
lemma otp_sample_counter2 :
    generateOtp (base32Decode sampleSecret) 2 6 = "359152" := by decide

set_option maxRecDepth 400000 in
/-- RFC 4226 test vector, counter 3. -/
lemma otp_sample_counter3 :
    generateOtp (base32Decode sampleSecret) 3 6 = "969429" := by decide

/-- C8 witness: at `t = 59s` (counter 1) two timestamps in the same step agree,
the codes of counters 0 and 2 verify, the counter-3 code (two steps away,
distinct from all three window codes) does not, and a five-digit input is
rejected outright. -/
theorem totp_determinism_window_acceptance_witness :
    generateTotp sampleSecret 59000 = generateTotp sampleSecret 35000
    ∧ isValidTotpToken sampleSecret
        (generateOtp (base32Decode sampleSecret) 0 6) 59000 = true
    ∧ isValidTotpToken sampleSecret
        (generateOtp (base32Decode sampleSecret) 2 6) 59000 = true
    ∧ isValidTotpToken sampleSecret
        (generateOtp (base32Decode sampleSecret) 3 6) 59000 = false
    ∧ isValidTotpToken sampleSecret "28708" 59000 = false := by
  have hwin := totp_determinism_window_acceptance.2.2.2.1 sampleSecret 59000 1
    (by decide) (by decide)
  have hfar := totp_determinism_window_acceptance.2.2.2.2.1 sampleSecret 59000
    1 2 (by decide) (by decide) (by
      intro w hw
      have hw' : w = 0 ∨ w = 1 ∨ w = 2 := by
        simpa [windowCounters] using hw
      rcases hw' with rfl | rfl | rfl <;>
        rw [show (1 : Nat) + 2 = 3 from rfl, otp_sample_counter3] <;>
        simp [otp_sample_counter0, otp_sample_counter1, otp_sample_counter2])
  refine ⟨totp_determinism_window_acceptance.1 sampleSecret 59000 35000
    (by decide), ?_, ?_, ?_,
    totp_determinism_window_acceptance.2.2.1 sampleSecret "28708" 59000
      (by decide)⟩
  · exact hwin.1
  · exact hwin.2.2
  · exact hfar

end FinanceAuth
